import Mathlib

/-!
Verification development for the ai-voice-interviewer core:
shallow embedding of the tokenizer, skill / education / experience
extractors, match scorer, answer evaluator, interview planner and the
interview session state machine, with theorems about the properties the
specification states.

Numeric conventions: Python floats are modelled by exact rationals (ℚ);
Python's `int(x)` on a nonnegative float is modelled by the floor;
`round(x, k)` is modelled by rounding `x * 10^k` to the nearest integer.
Character case-folding follows the source's ASCII vocabularies
(`Char.toLower` agrees with Python `str.lower` on ASCII).
-/

namespace AIVoice

/-! ### Character classes used by the source's regexes -/

/-- Python regex `\w` (ASCII): used for `\b` word-boundary semantics. -/
def isWordChar (c : Char) : Bool := c.isAlpha || c.isDigit || c = '_'

/-- The character class `[a-zA-Z0-9]` of the tokenizers. -/
def isTokChar (c : Char) : Bool := c.isAlpha || c.isDigit

/-- Python regex `\s` (ASCII whitespace). -/
def isPySpace (c : Char) : Bool :=
  c = ' ' || c = '\t' || c = '\n' || c = '\r' || c = '\x0b' || c = '\x0c'

/-- Lowercase a character sequence (ASCII case folding, as `str.lower`
on the ASCII texts the vocabularies are drawn from). -/
def lowerChars (l : List Char) : List Char := l.map Char.toLower

/-! ### `app.domain.policies.shortlisting.tokenize`

`_WORD_RE = re.compile(r"[a-zA-Z0-9]+")`
`def tokenize(text): return [t.lower() for t in _WORD_RE.findall(text)]` -/

/-- Maximal runs of `[a-zA-Z0-9]+`, lowercased, in text order.  Each step
consumes at least one character, so `fuel = length` (supplied by the
wrapper below) never runs out; the explicit fuel only makes the recursion
structural. -/
def tokenizeAuxF : Nat → List Char → List (List Char)
  | 0, _ => []
  | _, [] => []
  | fuel + 1, c :: cs =>
    if isTokChar c then
      lowerChars ((c :: cs).takeWhile isTokChar) ::
        tokenizeAuxF fuel ((c :: cs).dropWhile isTokChar)
    else
      tokenizeAuxF fuel cs

def tokenizeAux (l : List Char) : List (List Char) := tokenizeAuxF l.length l

/-- `tokenize` from `shortlisting.py`. -/
def tokenize (s : String) : List String :=
  (tokenizeAux s.data).map List.asString

/-! ### `app.interview_engine.engine`

The session state machine.  `datetime` timestamps are modelled by an
arbitrary type `DT` (current time is passed in explicitly); `metadata`
(a `dict[str, Any]` that `start` fills with two integer entries) is
modelled as an association list.  The in-place mutation with
`ValueError` is modelled by state passing in `Except String`. -/

structure InterviewTurn where
  question : String
  answer : Option String := none
deriving Repr, DecidableEq

structure InterviewSessionState (DT : Type) where
  session_id : String
  status : String
  turns : List InterviewTurn
  next_turn_index : Nat := 0
  started_at : DT
  ended_at : Option DT := none
  metadata : List (String × Nat) := []
deriving Repr

/-- `InterviewSessionState.max_questions` (property). -/
def InterviewSessionState.max_questions {DT} (s : InterviewSessionState DT) : Nat :=
  s.turns.length

/-- `InterviewSessionState.current_question`. -/
def InterviewSessionState.current_question {DT} (s : InterviewSessionState DT) :
    Option String :=
  if s.status ≠ "active" then none
  else if s.turns.length ≤ s.next_turn_index then none
  else (s.turns[s.next_turn_index]?).map (fun t => t.question)

/-- `self.turns[i].answer = answer` on the turn list. -/
def setAnswer : List InterviewTurn → Nat → String → List InterviewTurn
  | [], _, _ => []
  | t :: ts, 0, a => { t with answer := some a } :: ts
  | t :: ts, i + 1, a => t :: setAnswer ts i a

/-- `InterviewSessionState.submit_answer`; `now` is the clock reading taken
when the session completes (`datetime.now`). -/
def InterviewSessionState.submit_answer {DT} (now : DT)
    (s : InterviewSessionState DT) (answer : String) :
    Except String (InterviewSessionState DT) :=
  if s.status ≠ "active" then .error "Interview is not active."
  else if s.turns.length ≤ s.next_turn_index then .error "No remaining questions."
  else
    let turns' := setAnswer s.turns s.next_turn_index answer
    let idx' := s.next_turn_index + 1
    if s.turns.length ≤ idx' then
      .ok { s with turns := turns', next_turn_index := idx',
                   status := "completed", ended_at := some now }
    else
      .ok { s with turns := turns', next_turn_index := idx' }

/-- `InterviewSessionState.transcript`. -/
def InterviewSessionState.transcript {DT} (s : InterviewSessionState DT) :
    List (String × Option String) :=
  s.turns.map (fun t => (t.question, t.answer))

/-- `TextInterviewEngine.start`: the planner and the session-id factory are
constructor-injected in the source, so they are parameters here; `now` is
the creation-time clock reading. -/
def engineStart {DT} (planner : String → String → Int → List String)
    (session_id : String) (now : DT)
    (job_description resume_text : String) (max_questions : Int) :
    InterviewSessionState DT :=
  let questions := planner job_description resume_text max_questions
  { session_id := session_id
    status := "active"
    turns := questions.map (fun q => { question := q })
    next_turn_index := 0
    started_at := now
    ended_at := none
    metadata :=
      [("job_description_chars", job_description.length),
       ("resume_text_chars", resume_text.length)] }

/-- `TextInterviewEngine.next_question` delegates to `current_question`. -/
def engineNextQuestion {DT} (s : InterviewSessionState DT) : Option String :=
  s.current_question

/-- Submitting a list of answers in sequence
(`TextInterviewEngine.answer` iterated). -/
def submitList {DT} (now : DT) :
    InterviewSessionState DT → List String → Except String (InterviewSessionState DT)
  | s, [] => .ok s
  | s, a :: rest =>
    match s.submit_answer now a with
    | .ok s' => submitList now s' rest
    | .error e => .error e

/-! ### Generic string machinery shared by the regex-based extractors

All matching is over `List Char`.  Anchored matchers are written in
continuation-passing style so that the ordered-alternative and greedy
backtracking semantics of Python's `re` are reproduced exactly for the
fixed patterns of this code base. -/

/-- Python `needle in hay` (contiguous substring). -/
def strContains : List Char → List Char → Bool
  | hay, needle =>
    needle.isPrefixOf hay ||
      match hay with
      | [] => false
      | _ :: t => strContains t needle

/-- Case-insensitive prefix test against an already-lowercase ASCII literal. -/
def ciPrefix : List Char → List Char → Bool
  | [], _ => true
  | _ :: _, [] => false
  | a :: as, b :: bs => (a = b.toLower) && ciPrefix as bs

/-- First-occurrence deduplication (`list(dict.fromkeys(...))`, and the
membership carried by Python `set`s). -/
def dedupAux {α} [DecidableEq α] (seen : List α) : List α → List α
  | [] => []
  | x :: xs => if x ∈ seen then dedupAux seen xs else x :: dedupAux (x :: seen) xs

def dedup {α} [DecidableEq α] (l : List α) : List α := dedupAux [] l

/-- Length of the maximal run of `p`-characters at the head. -/
def runLen (p : Char → Bool) (s : List Char) : Nat := (s.takeWhile p).length

/-- Word-character test on an optional character (out of range = non-word),
for `\b` boundary checks. -/
def isWordOpt : Option Char → Bool
  | some c => isWordChar c
  | none => false

/-- `re.search(r"\b" + re.escape(needle) + r"\b", text)` existence, on a
pre-lowercased `text` with a lowercase `needle`; `prev` is the character
preceding the current position. -/
def wordBounded (needle : List Char) : Option Char → List Char → Bool
  | _, [] => false
  | prev, c :: rest =>
    (needle.isPrefixOf (c :: rest)
        && (isWordOpt prev != isWordOpt needle.head?)
        && (isWordOpt needle.getLast? != isWordOpt ((c :: rest).drop needle.length).head?))
      || wordBounded needle (some c) rest

/-- Anchored backtracking matchers: receiving a continuation on the
remaining input, returning the remainder after a successful overall match. -/
def RM : Type := (List Char → Option (List Char)) → List Char → Option (List Char)

/-- Case-sensitive literal. -/
def rmLit (lit : List Char) : RM := fun k s =>
  if lit.isPrefixOf s then k (s.drop lit.length) else none

/-- Case-insensitive literal (`re.IGNORECASE`), `lit` lowercase. -/
def rmLitCI (lit : List Char) : RM := fun k s =>
  if ciPrefix lit s then k (s.drop lit.length) else none

/-- Sequencing. -/
def rmSeq (a b : RM) : RM := fun k s => a (fun s1 => b k s1) s

def rmSeqs : List RM → RM
  | [] => fun k s => k s
  | m :: ms => rmSeq m (rmSeqs ms)

/-- Ordered alternation with full backtracking into the continuation. -/
def rmAlt (a b : RM) : RM := fun k s => a k s <|> b k s

def rmAlts : List RM → RM
  | [] => fun _ _ => none
  | m :: ms => rmAlt m (rmAlts ms)

/-- Greedy `X?`. -/
def rmOpt (a : RM) : RM := fun k s => a k s <|> k s

/-- Single character from a class. -/
def rmCharCls (p : Char → Bool) : RM := fun k s =>
  match s with
  | c :: rest => if p c then k rest else none
  | [] => none

/-- Try dropping `i, i-1, ..., 1` characters (greedy backtracking order). -/
def tryDrops (k : List Char → Option (List Char)) (s : List Char) : Nat → Option (List Char)
  | 0 => none
  | i + 1 => k (s.drop (i + 1)) <|> tryDrops k s i

/-- Greedy `X+` over a character class, with backtracking. -/
def rmCls1 (p : Char → Bool) : RM := fun k s => tryDrops k s (runLen p s)

/-- Greedy `X*` over a character class, with backtracking. -/
def rmCls0 (p : Char → Bool) : RM := fun k s => tryDrops k s (runLen p s) <|> k s

/-- `\s+`. -/
def rmWs1 : RM := rmCls1 isPySpace

/-- `\s*`. -/
def rmWs0 : RM := rmCls0 isPySpace

/-- Exactly `n` characters from a class (`\d{4}`). -/
def rmExact (p : Char → Bool) (n : Nat) : RM := fun k s =>
  if (s.take n).length = n && (s.take n).all p then k (s.drop n) else none

/-- Run an anchored matcher, returning the number of characters consumed. -/
def rmRun (m : RM) (s : List Char) : Option Nat :=
  (m (fun rest => some rest) s).map (fun rest => s.length - rest.length)

/-- `re.findall`-style scan: try the anchored matcher at each position;
on a match of `n` characters emit its output and resume after it
(non-overlapping), otherwise advance one character.  All patterns in this
code base consume at least one character; `max n 1` only certifies
termination. -/
def scanFindallF (m : List Char → Option (Nat × List Char)) :
    Nat → List Char → List (List Char)
  | 0, _ => []
  | _, [] => []
  | fuel + 1, c :: rest =>
    match m (c :: rest) with
    | some (n, out) => out :: scanFindallF m fuel ((c :: rest).drop (max n 1))
    | none => scanFindallF m fuel rest

def scanFindall (m : List Char → Option (Nat × List Char)) (s : List Char) :
    List (List Char) :=
  scanFindallF m s.length s

/-- Whole-match emission for a group-less pattern. -/
def wholeMatch (m : RM) (s : List Char) : Option (Nat × List Char) :=
  (rmRun m s).map (fun n => (n, s.take n))

/-! ### `app.nlp.skill_extractor` -/

/-- `_COMMON_TECH_SKILLS`, in the order written in the source (a Python
`set` literal; iteration order only affects list order, never membership,
and every property proved below is order-independent).  The duplicate
`"django"` entry of the literal collapses, as in the set. -/
def commonTechSkills : List String :=
  ["python", "java", "javascript", "c++", "c#", "ruby", "go", "rust", "swift",
   "kotlin", "php", "scala", "typescript", "r", "sql", "html", "css",
   "django", "flask", "fastapi", "spring", "react", "angular", "vue", "nodejs",
   "express", "rails", "numpy", "pandas", "tensorflow", "pytorch", "keras",
   "scikit-learn", "laravel", "asp.net", "jquery", "bootstrap",
   "aws", "azure", "gcp", "docker", "kubernetes", "jenkins", "git", "ci/cd",
   "terraform", "ansible", "linux", "bash", "shell", "nginx", "apache",
   "postgresql", "mysql", "mongodb", "redis", "sqlite", "oracle", "elasticsearch",
   "cassandra", "dynamodb", "neo4j", "firebase",
   "machine learning", "deep learning", "nlp", "data science", "data analysis",
   "statistics", "matplotlib", "seaborn", "tableau", "power bi", "spark", "hadoop",
   "jupyter", "rmarkdown", "sas", "spss",
   "api", "rest", "graphql", "microservices", "agile", "scrum", "kanban",
   "tdd", "bdd", "unit testing", "integration testing", "gitflow", "design patterns"]

/-- `_SOFT_SKILLS`. -/
def softSkillsVocab : List String :=
  ["leadership", "communication", "teamwork", "problem solving", "critical thinking",
   "adaptability", "time management", "collaboration", "analytical", "creativity",
   "project management", "public speaking", "negotiation", "decision making",
   "strategic thinking", "mentoring", "coaching", "interpersonal", "organizational"]

/-- The `(\.\d+)*` tail of the version patterns: returns characters
consumed and the capture of the last iteration (`re.findall` reports the
group, not the whole match). -/
def dotDigitGroupsF : Nat → List Char → Nat × List Char
  | 0, _ => (0, [])
  | fuel + 1, s =>
    match s with
    | '.' :: rest =>
      let d := runLen Char.isDigit rest
      if d = 0 then (0, [])
      else
        let (n, g) := dotDigitGroupsF fuel (rest.drop d)
        (1 + d + n, if g.isEmpty then '.' :: rest.take d else g)
    | _ => (0, [])

def dotDigitGroups (s : List Char) : Nat × List Char := dotDigitGroupsF s.length s

/-- A version pattern `name\s*\d+(\.\d+)*` (on lowered text): consumed
length and the emitted capture-group text. -/
def matchVersion (name : List Char) (s : List Char) : Option (Nat × List Char) :=
  if name.isPrefixOf s then
    let s0 := s.drop name.length
    let w := runLen isPySpace s0
    let s1 := s0.drop w
    let d := runLen Char.isDigit s1
    if d = 0 then none
    else
      let (n, g) := dotDigitGroups (s1.drop d)
      some (name.length + w + d + n, g)
  else none

/-- `node(?:js)?\s*\d+(\.\d+)*`: greedy optional `js` with backtracking. -/
def matchNode (s : List Char) : Option (Nat × List Char) :=
  matchVersion "nodejs".data s <|> matchVersion "node".data s

/-- A certification pattern `a\s*b` (no group: whole match emitted). -/
def matchLitPair (a b : List Char) (s : List Char) : Option (Nat × List Char) :=
  if a.isPrefixOf s then
    let s0 := s.drop a.length
    let w := runLen isPySpace s0
    if b.isPrefixOf (s0.drop w) then
      some (a.length + w + b.length, a ++ s0.take w ++ b)
    else none
  else none

/-- A bare literal pattern (`pmp`, `prince2`). -/
def matchPlainLit (a : List Char) (s : List Char) : Option (Nat × List Char) :=
  if a.isPrefixOf s then some (a.length, a) else none

/-- `_SKILL_PATTERNS`, as anchored matchers over the lowered text, in
source order. -/
def skillPatternMatchers : List (List Char → Option (Nat × List Char)) :=
  [matchVersion "python".data, matchVersion "java".data, matchNode,
   matchVersion "react".data, matchVersion "angular".data, matchVersion "django".data,
   matchLitPair "aws".data "certified".data,
   matchLitPair "azure".data "certified".data,
   matchLitPair "gcp".data "certified".data,
   matchPlainLit "pmp".data, matchPlainLit "prince2".data,
   matchLitPair "scrum".data "master".data,
   matchLitPair "agile".data "certified".data]

/-- `_find_skills_by_pattern(text, _SKILL_PATTERNS)`: the union of the
lowered `findall` results (a Python `set`; first-occurrence order here). -/
def findSkillsByPattern (textLower : List Char) : List (List Char) :=
  dedup (skillPatternMatchers.flatMap (fun m => scanFindall m textLower))

/-- `_extract_keyword_skills(text, skill_dict)`. -/
def extractKeywordSkills (text : String) (vocab : List String) : List String :=
  let textLower := lowerChars text.data
  vocab.filter (fun sk => wordBounded sk.data none textLower)

structure SkillsResult where
  technical : List String
  soft : List String
  total_count : Nat
deriving Repr, DecidableEq

/-- `extract_skills`. -/
def extract_skills (text : String) : SkillsResult :=
  let tech_skills := extractKeywordSkills text commonTechSkills
  let soft_skills := extractKeywordSkills text softSkillsVocab
  let pattern_skills := (findSkillsByPattern (lowerChars text.data)).map List.asString
  let tech2 := tech_skills ++ pattern_skills.filter (fun s => !tech_skills.contains s)
  let technical := dedup tech2
  let soft := dedup soft_skills
  { technical := technical, soft := soft,
    total_count := technical.length + soft.length }

/-! ### `app.nlp.education_extractor` -/

/-- Boundary-aware `re.findall` scan: the matcher also receives the
character preceding the current position (for `\b` lookbehind). -/
def scanFindallBF (m : Option Char → List Char → Option (Nat × List Char)) :
    Nat → Option Char → List Char → List (List Char)
  | 0, _, _ => []
  | _, _, [] => []
  | fuel + 1, prev, c :: rest =>
    match m prev (c :: rest) with
    | some (n, out) =>
      out :: scanFindallBF m fuel (((c :: rest).take (max n 1)).getLast?)
        ((c :: rest).drop (max n 1))
    | none => scanFindallBF m fuel (some c) rest

def scanFindallB (m : Option Char → List Char → Option (Nat × List Char))
    (prev : Option Char) (s : List Char) : List (List Char) :=
  scanFindallBF m s.length prev s

/-- First literal of the list that is a (case-sensitive) prefix. -/
def firstLitPrefix (lits : List (List Char)) (s : List Char) : Option Nat :=
  match lits with
  | [] => none
  | l :: ls => if l.isPrefixOf s then some l.length else firstLitPrefix ls s

/-- Python `str.strip()` (ASCII whitespace). -/
def pyStrip (s : List Char) : List Char :=
  ((s.dropWhile isPySpace).reverse.dropWhile isPySpace).reverse

/-- The class `[^\n,]+`. -/
def clsNoNlComma : RM := rmCls1 (fun c => !(c = '\n' || c = ','))

/-- `(?:of\s+)?`. -/
def optOf : RM := rmOpt (rmSeq (rmLitCI "of".data) rmWs1)

/-- `(?:in\s+)?`. -/
def optIn : RM := rmOpt (rmSeq (rmLitCI "in".data) rmWs1)

def rmAltsCI (lits : List String) : RM := rmAlts (lits.map (fun w => rmLitCI w.data))

def rmAltsCS (lits : List String) : RM := rmAlts (lits.map (fun w => rmLit w.data))

/-- `(?:Bachelor|Master|Doctor|PhD)\s+(?:of\s+)?(?:Science|Arts|Engineering|Business|Fine Arts)\s+(?:in\s+)?[^\n,]+`. -/
def degreeP1 : RM :=
  rmSeqs [rmAltsCI ["bachelor", "master", "doctor", "phd"], rmWs1, optOf,
    rmAltsCI ["science", "arts", "engineering", "business", "fine arts"], rmWs1,
    optIn, clsNoNlComma]

/-- `(?:B\.Sc|M\.Sc|B\.A|M\.A|BSc|MSc|BS|MS|BA|MA|MBA|PhD)\.?\s+(?:in\s+)?[^\n,]+`. -/
def degreeP2 : RM :=
  rmSeqs [rmAltsCI ["b.sc", "m.sc", "b.a", "m.a", "bsc", "msc", "bs", "ms", "ba",
      "ma", "mba", "phd"],
    rmOpt (rmLitCI ".".data), rmWs1, optIn, clsNoNlComma]

/-- `(?:Bachelor|Master|Doctorate)\s+degree\s+(?:in\s+)?[^\n,]+`. -/
def degreeP3 : RM :=
  rmSeqs [rmAltsCI ["bachelor", "master", "doctorate"], rmWs1,
    rmLitCI "degree".data, rmWs1, optIn, clsNoNlComma]

/-- `_DEGREE_KEYWORDS` in source order (set literal; order-insensitive use). -/
def degreeKeywords : List String :=
  ["bachelor", "master", "phd", "doctorate", "doctor", "mba", "associate",
   "b.sc", "m.sc", "b.a", "m.a", "bs", "ms", "ba", "ma", "diploma",
   "certificate", "certification"]

/-- `_FIELD_KEYWORDS` in source order. -/
def fieldKeywords : List String :=
  ["computer science", "data science", "software engineering", "information technology",
   "mathematics", "statistics", "physics", "chemistry", "biology",
   "business", "economics", "finance", "marketing", "management",
   "engineering", "electrical engineering", "mechanical engineering",
   "psychology", "sociology", "philosophy", "literature",
   "law", "medicine", "nursing", "education"]

/-- The keyword interpolated unescaped into `rf"\b{keyword}\b[^\n]{{0,50}}"`:
a literal `.` in the keyword is the regex wildcard (any non-newline). -/
def kwSeq (kw : List Char) : RM :=
  rmSeqs (kw.map (fun c =>
    if c = '.' then rmCharCls (fun x => x ≠ '\n') else rmLitCI [c]))

/-- Anchored matcher for `rf"\b{keyword}\b[^\n]{{0,50}}"` (all keywords
start and end with a letter, so both `\b` require a non-word neighbour). -/
def matchKwWindow (kw : List Char) (prev : Option Char) (s : List Char) :
    Option (Nat × List Char) :=
  if isWordOpt prev then none
  else
    match rmRun (kwSeq kw) s with
    | none => none
    | some n =>
      if isWordOpt ((s.drop n).head?) then none
      else
        let w := min 50 (runLen (fun c => c ≠ '\n') (s.drop n))
        some (n + w, s.take (n + w))

/-- Inner loop of the keyword pass: keep a window match iff some field
keyword occurs in it (appended once, stripped). -/
def kwPassKeep (m : List Char) : Bool :=
  fieldKeywords.any (fun f => strContains (lowerChars m) f.data)

/-- `_extract_degree`. -/
def extractDegree (text : List Char) : List String :=
  let patternPass :=
    scanFindall (wholeMatch degreeP1) text ++
    scanFindall (wholeMatch degreeP2) text ++
    scanFindall (wholeMatch degreeP3) text
  let keywordPass :=
    degreeKeywords.flatMap (fun kw =>
      ((scanFindallB (matchKwWindow kw.data) none text).filter kwPassKeep).map pyStrip)
  dedup ((patternPass ++ keywordPass).map List.asString)

/-- Suffix alternatives of the first institution pattern, in source order
(`Institute` precedes and therefore shadows `Institute of Technology`). -/
def instAlts : List (List Char) :=
  ["University".data, "College".data, "Institute".data,
   "Institute of Technology".data, "Polytechnic".data]

/-- The lazy `[^\n]*?(?:University|...)` search: at each position first try
the alternatives, otherwise consume one non-newline character. -/
def lazyFindAlts (lits : List (List Char)) : List Char → Option Nat
  | [] => firstLitPrefix lits []
  | c :: rest =>
    match firstLitPrefix lits (c :: rest) with
    | some n => some n
    | none =>
      if c = '\n' then none else (lazyFindAlts lits rest).map (fun n => n + 1)

/-- `[A-Z][^\n]*?(?:University|College|Institute|Institute of Technology|Polytechnic)`. -/
def matchInstP1 (s : List Char) : Option (Nat × List Char) :=
  match s with
  | c :: rest =>
    if c.isUpper then (lazyFindAlts instAlts rest).map (fun n => (n + 1, s.take (n + 1)))
    else none
  | [] => none

/-- `University\s+(?:of|at)\s+[^\n,]+` (case-sensitive). -/
def instP2 : RM :=
  rmSeqs [rmLit "University".data, rmWs1, rmAlt (rmLit "of".data) (rmLit "at".data),
    rmWs1, clsNoNlComma]

/-- `School\s+of\s+[^\n,]+` (case-sensitive). -/
def instP3 : RM :=
  rmSeqs [rmLit "School".data, rmWs1, rmLit "of".data, rmWs1, clsNoNlComma]

/-- `_extract_institution`. -/
def extractInstitution (text : List Char) : List String :=
  dedup ((scanFindall matchInstP1 text ++
    scanFindall (wholeMatch instP2) text ++
    scanFindall (wholeMatch instP3) text).map List.asString)

/-- `\b(19|20)\d{2}\b`: `re.findall` emits the capture group (`"19"`/`"20"`),
not the year. -/
def matchYearP1 (prev : Option Char) (s : List Char) : Option (Nat × List Char) :=
  if isWordOpt prev then none
  else
    let g := if "19".data.isPrefixOf s then some "19".data
             else if "20".data.isPrefixOf s then some "20".data else none
    match g with
    | none => none
    | some gs =>
      if ((s.drop 2).take 2).length = 2 && ((s.drop 2).take 2).all Char.isDigit
          && !isWordOpt ((s.drop 4).head?) then
        some (4, gs)
      else none

/-- Tail of `\b(19|20)\d{2}\s*-\s*(?:19|20)?\d{2}\b` after the group. -/
def yearP2Tail : RM :=
  rmSeqs [rmExact Char.isDigit 2, rmWs0, rmLit "-".data, rmWs0,
    rmOpt (rmAlt (rmLit "19".data) (rmLit "20".data)), rmExact Char.isDigit 2]

/-- `\b(19|20)\d{2}\s*-\s*(?:19|20)?\d{2}\b` (group emitted). -/
def matchYearP2 (prev : Option Char) (s : List Char) : Option (Nat × List Char) :=
  if isWordOpt prev then none
  else
    let g := if "19".data.isPrefixOf s then some "19".data
             else if "20".data.isPrefixOf s then some "20".data else none
    match g with
    | none => none
    | some gs =>
      match rmRun yearP2Tail (s.drop 2) with
      | some n =>
        if !isWordOpt ((s.drop (2 + n)).head?) then some (2 + n, gs) else none
      | none => none

/-- `_extract_years`. -/
def extractYears (text : List Char) : List String :=
  dedup ((scanFindallB matchYearP1 none text ++
    scanFindallB matchYearP2 none text).map List.asString)

structure EducationEntry where
  degree : String
  eduField : Option String
  institution : Option String
  year : Option String
deriving Repr, DecidableEq

structure EducationResult where
  degrees : List String
  institutions : List String
  years : List String
  entries : List EducationEntry
  education_level : String
deriving Repr, DecidableEq

/-- `_guess_field_of_study` (first contained field keyword, in the fixed
vocabulary order). -/
def guessFieldOfStudy (degree : String) : Option String :=
  fieldKeywords.find? (fun f => strContains (lowerChars degree.data) f.data)

/-- `_determine_education_level`. -/
def determineEducationLevel (degrees : List String) : String :=
  if degrees.isEmpty then "unknown"
  else
    let degree_str := lowerChars (" ".intercalate degrees).data
    if ["phd", "doctor", "doctorate"].any (fun k => strContains degree_str k.data) then
      "doctorate"
    else if ["master", "m.sc", "m.s", "m.a", "mba"].any (fun k => strContains degree_str k.data) then
      "master"
    else if ["bachelor", "b.sc", "b.s", "b.a"].any (fun k => strContains degree_str k.data) then
      "bachelor"
    else if ["associate"].any (fun k => strContains degree_str k.data) then
      "associate"
    else if ["diploma", "certificate"].any (fun k => strContains degree_str k.data) then
      "diploma"
    else "unknown"

/-- `extract_education`. -/
def extract_education (text : String) : EducationResult :=
  let degrees := extractDegree text.data
  let institutions := extractInstitution text.data
  let years := extractYears text.data
  let entries := degrees.enum.map (fun p =>
    { degree := p.2, eduField := guessFieldOfStudy p.2,
      institution := institutions[p.1]?, year := years[p.1]? })
  { degrees := degrees, institutions := institutions, years := years,
    entries := entries, education_level := determineEducationLevel degrees }

/-! ### Python numeric conventions over ℚ -/

/-- Python `int(x)` (truncation towards zero). -/
def pyTrunc (x : ℚ) : ℤ := if 0 ≤ x then ⌊x⌋ else ⌈x⌉

/-- Python `round(x)` on an exact value (banker's rounding, half to even). -/
def pyRoundInt (x : ℚ) : ℤ :=
  if x - ⌊x⌋ < 1 / 2 then ⌊x⌋
  else if x - ⌊x⌋ > 1 / 2 then ⌊x⌋ + 1
  else if Even ⌊x⌋ then ⌊x⌋ else ⌊x⌋ + 1

/-- Python `round(x, k)`. -/
def pyRoundTo (k : ℕ) (x : ℚ) : ℚ := (pyRoundInt (x * 10 ^ k) : ℚ) / 10 ^ k

/-- Decimal value of a digit string (`int(match)`). -/
def digitsVal (s : List Char) : Nat :=
  s.foldl (fun a c => a * 10 + (c.toNat - 48)) 0

/-- Decimal digits of a natural number (most significant first); the fuel
bounds the digit count and never runs out for `fuel = n + 1`. -/
def natDigitsF : Nat → Nat → List Char
  | 0, _ => []
  | fuel + 1, n =>
    if n < 10 then [Nat.digitChar n]
    else natDigitsF fuel (n / 10) ++ [Nat.digitChar (n % 10)]

/-- Python `str(n)` for a natural number. -/
def natRepr (n : Nat) : String := (natDigitsF (n + 1) n).asString

/-- Python `str(i)` for an integer. -/
def intRepr (i : ℤ) : String :=
  if i < 0 then "-" ++ natRepr i.natAbs else natRepr i.toNat

/-! ### `app.nlp.experience_extractor` -/

/-- `_TITLE_KEYWORDS` in source order. -/
def titleKeywords : List String :=
  ["engineer", "developer", "manager", "analyst", "director", "lead",
   "senior", "junior", "principal", "architect", "consultant", "specialist",
   "coordinator", "administrator", "officer", "assistant", "head", "chief"]

/-- `Full.?Stack` (`.` is the any-non-newline wildcard). -/
def fullStack : RM :=
  rmSeqs [rmLit "Full".data, rmOpt (rmCharCls (fun c => c ≠ '\n')), rmLit "Stack".data]

/-- `(?:Senior|Junior|Principal|Lead|Staff)?\s*(?:Software|Full.?Stack|Backend|Frontend|Data|ML|DevOps|Cloud)?\s*(?:Engineer|Developer|Manager|Architect|Analyst|Consultant)`. -/
def titleP1 : RM :=
  rmSeqs [rmOpt (rmAltsCS ["Senior", "Junior", "Principal", "Lead", "Staff"]), rmWs0,
    rmOpt (rmAlts [rmLit "Software".data, fullStack, rmLit "Backend".data,
      rmLit "Frontend".data, rmLit "Data".data, rmLit "ML".data,
      rmLit "DevOps".data, rmLit "Cloud".data]),
    rmWs0,
    rmAltsCS ["Engineer", "Developer", "Manager", "Architect", "Analyst", "Consultant"]]

/-- `(?:Engineering|Technical|Product|Project)\s+Manager`. -/
def titleP2 : RM :=
  rmSeqs [rmAltsCS ["Engineering", "Technical", "Product", "Project"], rmWs1,
    rmLit "Manager".data]

/-- `(?:Director|VP)\s+(?:of\s+)?(?:Engineering|Technology|Product|Operations)`. -/
def titleP3 : RM :=
  rmSeqs [rmAltsCS ["Director", "VP"], rmWs1,
    rmOpt (rmSeq (rmLit "of".data) rmWs1),
    rmAltsCS ["Engineering", "Technology", "Product", "Operations"]]

/-- `(?:Data|ML|AI)\s+Scientist`. -/
def titleP4 : RM :=
  rmSeqs [rmAltsCS ["Data", "ML", "AI"], rmWs1, rmLit "Scientist".data]

/-- `text.split("\n")` (keeps empty segments). -/
def splitOnNl : List Char → List (List Char)
  | [] => [[]]
  | c :: rest =>
    if c = '\n' then [] :: splitOnNl rest
    else
      match splitOnNl rest with
      | seg :: segs => (c :: seg) :: segs
      | [] => [[c]]

/-- Python `str.split()` with no argument: whitespace-run separated words. -/
def pySplitWsF : Nat → List Char → List (List Char)
  | 0, _ => []
  | _, [] => []
  | fuel + 1, c :: rest =>
    if isPySpace c then pySplitWsF fuel rest
    else
      ((c :: rest).takeWhile (fun x => !isPySpace x)) ::
        pySplitWsF fuel ((c :: rest).dropWhile (fun x => !isPySpace x))

def pySplitWs (l : List Char) : List (List Char) := pySplitWsF l.length l

/-- `_extract_job_titles`: the four pattern passes, then the short-line
heuristic, deduplicated. -/
def extractJobTitles (text : List Char) : List String :=
  let patterns :=
    scanFindall (wholeMatch titleP1) text ++
    scanFindall (wholeMatch titleP2) text ++
    scanFindall (wholeMatch titleP3) text ++
    scanFindall (wholeMatch titleP4) text
  let lineCands :=
    (splitOnNl text).map pyStrip |>.filter (fun line =>
      titleKeywords.any (fun kw => strContains (lowerChars line) kw.data)
        && (pySplitWs line).length ≤ 5)
  dedup ((patterns ++ lineCands).map List.asString)

/-- `[A-Z][A-Za-z\s]+(?:Inc|LLC|Corp|Ltd|Technologies|Solutions|Systems|Labs)`. -/
def companyP1 : RM :=
  rmSeqs [rmCharCls Char.isUpper, rmCls1 (fun c => c.isAlpha || isPySpace c),
    rmAltsCS ["Inc", "LLC", "Corp", "Ltd", "Technologies", "Solutions", "Systems", "Labs"]]

/-- `[A-Z][A-Za-z\s]+(?:Company|Group|Partners)`. -/
def companyP2 : RM :=
  rmSeqs [rmCharCls Char.isUpper, rmCls1 (fun c => c.isAlpha || isPySpace c),
    rmAltsCS ["Company", "Group", "Partners"]]

/-- `_extract_companies`. -/
def extractCompanies (text : List Char) : List String :=
  dedup ((scanFindall (wholeMatch companyP1) text ++
    scanFindall (wholeMatch companyP2) text).map List.asString)

/-- `(?:Jan|...|Dec)[a-z]*\s+\d{4}\s*-\s*(?:Present|Current|\d{4})` (with
`re.IGNORECASE`, `[a-z]` also matches capitals). -/
def durationP1 : RM :=
  rmSeqs [rmAltsCI ["jan", "feb", "mar", "apr", "may", "jun", "jul", "aug",
      "sep", "oct", "nov", "dec"],
    rmCls0 Char.isAlpha, rmWs1, rmExact Char.isDigit 4, rmWs0, rmLit "-".data, rmWs0,
    rmAlts [rmLitCI "present".data, rmLitCI "current".data, rmExact Char.isDigit 4]]

/-- `\d{4}\s*-\s*(?:Present|Current|\d{4})`. -/
def durationP2 : RM :=
  rmSeqs [rmExact Char.isDigit 4, rmWs0, rmLit "-".data, rmWs0,
    rmAlts [rmLitCI "present".data, rmLitCI "current".data, rmExact Char.isDigit 4]]

/-- `\d+(?:\.\d+)?\s+years?`. -/
def durationP3 : RM :=
  rmSeqs [rmCls1 Char.isDigit, rmOpt (rmSeq (rmLit ".".data) (rmCls1 Char.isDigit)),
    rmWs1, rmLitCI "year".data, rmOpt (rmLitCI "s".data)]

/-- `\d+\s+months?`. -/
def durationP4 : RM :=
  rmSeqs [rmCls1 Char.isDigit, rmWs1, rmLitCI "month".data, rmOpt (rmLitCI "s".data)]

/-- `_extract_durations`. -/
def extractDurations (text : List Char) : List String :=
  dedup ((scanFindall (wholeMatch durationP1) text ++
    scanFindall (wholeMatch durationP2) text ++
    scanFindall (wholeMatch durationP3) text ++
    scanFindall (wholeMatch durationP4) text).map List.asString)

/-- One bullet pattern `glyph\s*[^\n]+`. -/
def bulletP (g : Char) : RM :=
  rmSeqs [rmLit [g], rmWs0, rmCls1 (fun c => c ≠ '\n')]

/-- `re.sub(r"^[•\-·✓]\s*", "", m).strip()`. -/
def cleanBullet (m : List Char) : List Char :=
  match m with
  | c :: rest =>
    if c = '•' || c = '-' || c = '·' || c = '✓' then
      pyStrip (rest.dropWhile isPySpace)
    else pyStrip m
  | [] => []

/-- `_extract_bullets` (no deduplication in the source). -/
def extractBullets (text : List Char) : List String :=
  (['•', '-', '·', '✓'].flatMap (fun g =>
    (scanFindall (wholeMatch (bulletP g)) text).map cleanBullet)).map List.asString

/-- `(\d+)\s+years?` with the group emitted. -/
def matchNumYears (s : List Char) : Option (Nat × List Char) :=
  let d := runLen Char.isDigit s
  if d = 0 then none
  else
    let w := runLen isPySpace (s.drop d)
    if w = 0 then none
    else if ciPrefix "year".data (s.drop (d + w)) then
      let ss := if ciPrefix "s".data (s.drop (d + w + 4)) then 1 else 0
      some (d + w + 4 + ss, s.take d)
    else none

/-- `(\d+)\s+months?` with the group emitted. -/
def matchNumMonths (s : List Char) : Option (Nat × List Char) :=
  let d := runLen Char.isDigit s
  if d = 0 then none
  else
    let w := runLen isPySpace (s.drop d)
    if w = 0 then none
    else if ciPrefix "month".data (s.drop (d + w)) then
      let ss := if ciPrefix "s".data (s.drop (d + w + 5)) then 1 else 0
      some (d + w + 5 + ss, s.take d)
    else none

/-- `_extract_total_experience_months`: sum of every `N years` (×12) and
`N months` mention (the source's documented double-counting heuristic). -/
def extractTotalExperienceMonths (text : List Char) : Nat :=
  ((scanFindall matchNumYears text).map (fun g => digitsVal g * 12)).sum +
    ((scanFindall matchNumMonths text).map digitsVal).sum

structure ExperienceEntry where
  title : Option String
  company : Option String
  duration : Option String
  description : List String
deriving Repr, DecidableEq

structure ExperienceResult where
  job_titles : List String
  companies : List String
  durations : List String
  achievements : List String
  total_years_estimated : ℚ
  entries : List ExperienceEntry
deriving Repr, DecidableEq

/-- `extract_experience`. -/
def extract_experience (text : String) : ExperienceResult :=
  let job_titles := extractJobTitles text.data
  let companies := extractCompanies text.data
  let durations := extractDurations text.data
  let achievements := extractBullets text.data
  let max_len := max (max job_titles.length companies.length) durations.length
  let entries := (List.range max_len).map (fun i =>
    { title := job_titles[i]?, company := companies[i]?,
      duration := durations[i]?, description := [] })
  let total_months := extractTotalExperienceMonths text.data
  { job_titles := job_titles, companies := companies, durations := durations,
    achievements := achievements,
    total_years_estimated := pyRoundTo 1 ((total_months : ℚ) / 12),
    entries := entries }

/-! ### `app.nlp.scorer`

The scorer's private `_tokenize` is character-for-character the same
regex as `shortlisting.tokenize`; the shared embedding `tokenize` is
used for both. -/

/-- Lowercase a string (`skill.lower()` on the ASCII vocabularies). -/
def lowerString (s : String) : String := (lowerChars s.data).asString

/-- Tail of `(\d+)\+?\s*years?\s*(?:of\s+)?experience` after the group. -/
def reqYears1Tail : RM :=
  rmSeqs [rmOpt (rmLit "+".data), rmWs0, rmLitCI "year".data, rmOpt (rmLitCI "s".data),
    rmWs0, optOf, rmLitCI "experience".data]

/-- `(\d+)\+?\s*years?\s*(?:of\s+)?experience` with the group emitted. -/
def matchReqYears1 (s : List Char) : Option (Nat × List Char) :=
  let d := runLen Char.isDigit s
  if d = 0 then none
  else
    match rmRun reqYears1Tail (s.drop d) with
    | some n => some (d + n, s.take d)
    | none => none

/-- `(\d+)\s*-\s*(\d+)\s*years?\s*(?:of\s+)?experience`: `re.findall`
yields the group tuple and the caller takes `match[-1]`, the upper bound. -/
def matchReqYears2 (s : List Char) : Option (Nat × List Char) :=
  let d1 := runLen Char.isDigit s
  if d1 = 0 then none
  else
    let s1 := s.drop d1
    let w1 := runLen isPySpace s1
    if "-".data.isPrefixOf (s1.drop w1) then
      let s2 := s1.drop (w1 + 1)
      let w2 := runLen isPySpace s2
      let s3 := s2.drop w2
      let d2 := runLen Char.isDigit s3
      if d2 = 0 then none
      else
        match rmRun (rmSeqs [rmWs0, rmLitCI "year".data, rmOpt (rmLitCI "s".data),
            rmWs0, optOf, rmLitCI "experience".data]) (s3.drop d2) with
        | some n => some (d1 + w1 + 1 + w2 + d2 + n, s3.take d2)
        | none => none
    else none

structure ReqExperience where
  years : Nat
  levels : List String
deriving Repr, DecidableEq

structure ReqEducation where
  level : Option String
  fields : List String
deriving Repr, DecidableEq

/-- `_extract_required_experience`. -/
def extractRequiredExperience (job_description : String) : ReqExperience :=
  let jd := job_description.data
  let hits := (scanFindall matchReqYears1 jd).map digitsVal ++
    (scanFindall matchReqYears2 jd).map digitsVal
  let years := hits.foldl max 0
  let jdLower := lowerChars jd
  let levels := (["junior", "mid", "senior", "lead", "principal", "architect"] :
    List String).filter (fun lv => wordBounded lv.data none jdLower)
  { years := years, levels := levels }

/-- `text contains needle`, case-insensitively (lowercase needle). -/
def containsCI (text : List Char) (needle : String) : Bool :=
  strContains (lowerChars text) needle.data

/-- `_extract_required_education`: each `re.search` of the four level
patterns succeeds exactly when one of its alternatives occurs as a
substring (the `\s*(?:degree)?` tails and the optional `s` are
irrelevant to existence; `['']` is a one-apostrophe class, so the
possessive alternatives require a literal apostrophe). -/
def extractRequiredEducation (job_description : String) : ReqEducation :=
  let jd := job_description.data
  let level : Option String :=
    if ["phd", "doctorate", "doctor"].any (containsCI jd) then some "doctorate"
    else if ["master'", "m.sc", "m.a", "msc", "ma"].any (containsCI jd) then some "master"
    else if ["bachelor'", "b.sc", "b.a", "bsc", "ba"].any (containsCI jd) then some "bachelor"
    else if ["associate'"].any (containsCI jd) then some "associate"
    else none
  let fields := (["computer science", "data science", "software engineering",
    "information technology", "mathematics", "statistics",
    "business", "economics", "engineering"] : List String).filter (containsCI jd)
  { level := level, fields := fields }

/-- `_score_skills_match`. -/
def scoreSkillsMatch (jd_skills resume_skills : List String) : ℚ :=
  if jd_skills.isEmpty then 0
  else
    let jd_set := dedup (jd_skills.map lowerString)
    let resume_set := dedup (resume_skills.map lowerString)
    let intersection := jd_set.filter (fun s => resume_set.contains s)
    if jd_set.isEmpty then 0
    else
      let recallVal := (intersection.length : ℚ) / (jd_set.length : ℚ)
      if resume_set.isEmpty then 0
      else recallVal

/-- `_score_experience_match`. -/
def scoreExperienceMatch (jd_requirements : ReqExperience)
    (resume_experience : ExperienceResult) : ℚ :=
  let required_years := jd_requirements.years
  let resume_years := resume_experience.total_years_estimated
  let base : ℚ :=
    if required_years > 0 then
      if resume_years ≥ (required_years : ℚ) then 1
      else if resume_years ≥ (required_years : ℚ) * (3 / 4) then 3 / 4
      else if resume_years ≥ (required_years : ℚ) * (1 / 2) then 1 / 2
      else if resume_years > 0 then 1 / 4
      else 0
    else
      if resume_years > 0 then 1 / 2 else 0
  let levelBonus : ℚ :=
    if !jd_requirements.levels.isEmpty then
      let resume_titles := lowerChars (" ".intercalate resume_experience.job_titles).data
      if jd_requirements.levels.any (fun lv => strContains resume_titles lv.data) then 1 / 5
      else 0
    else 0
  min (base + levelBonus) 1

/-- `_EDUCATION_LEVELS.get(level, 0)`. -/
def eduLevelNum : String → Nat
  | "unknown" => 0
  | "diploma" => 1
  | "associate" => 2
  | "bachelor" => 3
  | "master" => 4
  | "doctorate" => 5
  | _ => 0

/-- `_score_education_match`. -/
def scoreEducationMatch (jd_requirements : ReqEducation)
    (resume_education : EducationResult) : ℚ :=
  let resume_level := resume_education.education_level
  let base : ℚ :=
    match jd_requirements.level with
    | some required_level =>
      let r := eduLevelNum required_level
      let m := eduLevelNum resume_level
      if m ≥ r then 1
      else if (m : ℤ) ≥ (r : ℤ) - 1 then 1 / 2
      else 0
    | none =>
      if resume_level = "bachelor" || resume_level = "master" || resume_level = "doctorate" then
        1 / 2
      else if resume_level = "associate" || resume_level = "diploma" then 3 / 10
      else 0
  let fieldBonus : ℚ :=
    if !jd_requirements.fields.isEmpty then
      let resume_fields := lowerChars (" ".intercalate resume_education.degrees).data
      if jd_requirements.fields.any (fun f => strContains resume_fields f.data) then 3 / 10
      else 0
    else 0
  min (base + fieldBonus) 1

/-- The scorer's stop list. -/
def scorerStopWords : List String :=
  ["the", "a", "an", "and", "or", "but", "in", "on", "at", "to", "for",
   "of", "with", "by", "as", "is", "are", "was", "were", "be", "been",
   "have", "has", "had", "do", "does", "did", "will", "would", "could",
   "should", "may", "might", "must", "can", "this", "that", "these", "those",
   "i", "you", "he", "she", "it", "we", "they", "my", "your", "our", "their",
   "work", "working", "team", "role", "position", "job", "candidate"]

/-- Multiplicity of a token in a token list (`Counter` count). -/
def countOcc (t : String) (l : List String) : Nat :=
  (l.filter (fun x => x = t)).length

/-- `_score_keyword_overlap`. -/
def scoreKeywordOverlap (jd_text resume_text : String) : ℚ :=
  let jd_tokens := tokenize jd_text
  let resume_tokens := tokenize resume_text
  let keys := (dedup jd_tokens).filter
    (fun k => !scorerStopWords.contains k && k.length > 2)
  if keys.isEmpty then 0
  else
    let total_sum := (keys.map (fun k => countOcc k jd_tokens)).sum
    let overlap_sum := (keys.map (fun k =>
      if 0 < countOcc k resume_tokens then
        min (countOcc k jd_tokens) (countOcc k resume_tokens)
      else 0)).sum
    if total_sum = 0 then 0
    else (overlap_sum : ℚ) / (total_sum : ℚ)

/-- Python `repr`/`str` of the one-decimal nonnegative floats produced by
`round(·, 1)` (the only values formatted into the explanation). -/
def floatRepr1 (x : ℚ) : String :=
  intRepr (pyTrunc x) ++ "." ++ intRepr (pyTrunc (x * 10) % 10)

/-- Lexicographic string sort (`sorted`): any stable structural sort;
Python compares strings lexicographically by code point. -/
def sortStrings (l : List String) : List String :=
  List.insertionSort (fun a b => a ≤ b) l

/-- `_generate_explanation`.  The caller passes the *experience*
requirement dict, so `jd_requirements.get("level")` — modelled by the
explicit `req_edu_level` argument — is always `none` in actual use. -/
def generateExplanation (skills_match experience_match education_match : ℚ)
    (jd_skills resume_skills : List String) (jd_requirements : ReqExperience)
    (req_edu_level : Option String) (resume_experience : ExperienceResult)
    (resume_education : EducationResult) : String :=
  let jd_set := dedup (jd_skills.map lowerString)
  let resume_set := dedup (resume_skills.map lowerString)
  let matched_skills := jd_set.filter (fun s => resume_set.contains s)
  let missed_skills := jd_set.filter (fun s => !resume_set.contains s)
  let parts1 : List String :=
    (if !matched_skills.isEmpty then
      ["Matched skills: " ++ ", ".intercalate (sortStrings matched_skills)] else []) ++
    (if !missed_skills.isEmpty then
      ["Missing required skills: " ++ ", ".intercalate (sortStrings missed_skills)] else [])
  let req_years := jd_requirements.years
  let resume_years := resume_experience.total_years_estimated
  let parts2 : List String :=
    if req_years > 0 then
      if resume_years ≥ (req_years : ℚ) then
        ["Meets experience requirement (" ++ natRepr req_years ++ "+ years)"]
      else
        ["Has " ++ floatRepr1 resume_years ++ " years experience (required: " ++
          natRepr req_years ++ "+)"]
    else []
  let resume_edu_level := resume_education.education_level
  let parts3 : List String :=
    match req_edu_level with
    | some rl =>
      if resume_edu_level = rl then
        ["Meets education requirement (" ++ rl ++ " degree)"]
      else if (resume_edu_level = "master" || resume_edu_level = "doctorate")
          && rl = "bachelor" then
        ["Exceeds education requirement (" ++ resume_edu_level ++ " degree)"]
      else if resume_edu_level ≠ "" then
        ["Has " ++ resume_edu_level ++ " degree (required: " ++ rl ++ ")"]
      else ["Education level unclear (required: " ++ rl ++ ")"]
    | none => []
  let overall := skills_match * (1 / 2) + experience_match * (3 / 10) +
    education_match * (3 / 20) + 1 / 20
  let overall_score := pyTrunc (overall * 100)
  let parts := ("Overall Match Score: " ++ intRepr overall_score ++ "%") ::
    (parts1 ++ parts2 ++ parts3)
  ". ".intercalate parts

structure ComponentScores where
  skills_match : ℚ
  experience_match : ℚ
  education_match : ℚ
  keyword_overlap : ℚ
deriving Repr, DecidableEq

structure JobRequirements where
  experience : ReqExperience
  education : ReqEducation
  skills : List String
deriving Repr, DecidableEq

structure ResumeData where
  skills : SkillsResult
  education : EducationResult
  experience : ExperienceResult
deriving Repr, DecidableEq

structure MatchScoreResult where
  overall_score : ℚ
  overall_score_percent : ℤ
  component_scores : ComponentScores
  explanation : String
  resume_data : ResumeData
  job_requirements : JobRequirements
deriving Repr, DecidableEq

/-- The raw (pre-rounding) weighted overall score. -/
def rawOverallScore (job_description resume_text : String) : ℚ :=
  scoreSkillsMatch (extract_skills job_description).technical
      (extract_skills resume_text).technical * (1 / 2)
    + scoreExperienceMatch (extractRequiredExperience job_description)
      (extract_experience resume_text) * (3 / 10)
    + scoreEducationMatch (extractRequiredEducation job_description)
      (extract_education resume_text) * (3 / 20)
    + scoreKeywordOverlap job_description resume_text * (1 / 20)

/-- `calculate_match_score`. -/
def calculate_match_score (job_description resume_text : String) : MatchScoreResult :=
  let resume_skills := extract_skills resume_text
  let resume_education := extract_education resume_text
  let resume_experience := extract_experience resume_text
  let jd_requirements : JobRequirements :=
    { experience := extractRequiredExperience job_description
      education := extractRequiredEducation job_description
      skills := (extract_skills job_description).technical }
  let skills_match := scoreSkillsMatch jd_requirements.skills resume_skills.technical
  let experience_match := scoreExperienceMatch jd_requirements.experience resume_experience
  let education_match := scoreEducationMatch jd_requirements.education resume_education
  let keyword_overlap := scoreKeywordOverlap job_description resume_text
  let overall_score := skills_match * (1 / 2) + experience_match * (3 / 10)
    + education_match * (3 / 20) + keyword_overlap * (1 / 20)
  let explanation := generateExplanation skills_match experience_match education_match
    jd_requirements.skills resume_skills.technical jd_requirements.experience
    none resume_experience resume_education
  { overall_score := pyRoundTo 3 overall_score
    overall_score_percent := pyTrunc (overall_score * 100)
    component_scores :=
      { skills_match := pyRoundTo 3 skills_match
        experience_match := pyRoundTo 3 experience_match
        education_match := pyRoundTo 3 education_match
        keyword_overlap := pyRoundTo 3 keyword_overlap }
    explanation := explanation
    resume_data :=
      { skills := resume_skills, education := resume_education,
        experience := resume_experience }
    job_requirements := jd_requirements }

/-! ### `app.nlp.answer_evaluator` -/

/-- Number of catalog phrases occurring as substrings of the (lowered)
text (`sum(1 for ind in catalog if ind in text)`). -/
def countContained (catalog : List String) (textLower : List Char) : Nat :=
  (catalog.filter (fun c => strContains textLower c.data)).length

/-- The relevance stop list. -/
def relevanceStopWords : List String :=
  ["the", "a", "an", "is", "are", "was", "were", "be", "been",
   "have", "has", "had", "do", "does", "did", "will", "would",
   "can", "could", "should", "may", "might", "must", "what",
   "how", "why", "when", "where", "who", "which", "tell",
   "me", "about", "your", "you", "to", "for", "of", "in"]

/-- `relevance_boosters`. -/
def relevanceBoosters : List String :=
  ["first", "second", "third", "finally", "in my experience",
   "specifically", "for example", "to illustrate", "basically",
   "essentially", "primarily", "mainly", "therefore", "consequently",
   "as a result", "because", "since", "due to"]

/-- `_calculate_relevance`. -/
def calculateRelevance (question answer : String) : ℚ :=
  if answer = "" || question = "" then 0
  else
    let question_tokens := dedup (tokenize question)
    let question_keywords := question_tokens.filter
      (fun t => !relevanceStopWords.contains t && t.length > 2)
    let answer_tokens := dedup (tokenize answer)
    let keyword_overlap : ℚ :=
      if question_keywords.isEmpty then 1 / 2
      else
        let matched := question_keywords.filter (fun t => answer_tokens.contains t)
        (matched.length : ℚ) / (question_keywords.length : ℚ)
    let booster_count := countContained relevanceBoosters (lowerChars answer.data)
    let booster_score : ℚ := min ((booster_count : ℚ) * (1 / 20)) (3 / 20)
    let answer_words := (tokenize answer).length
    let question_words := (tokenize question).length
    let length_score : ℚ :=
      if (answer_words : ℚ) ≥ (question_words : ℚ) * 2 then 1
      else if (answer_words : ℚ) ≥ (question_words : ℚ) then 4 / 5
      else if (answer_words : ℚ) ≥ (question_words : ℚ) * (1 / 2) then 3 / 5
      else if answer_words > 0 then 3 / 10
      else 0
    min (keyword_overlap * (1 / 2) + length_score * (7 / 20) + booster_score * (3 / 20)) 1

/-- `re.split(r"[.!?]+", s)` (split on maximal separator runs). -/
def splitSepsF (p : Char → Bool) : Nat → List Char → List (List Char)
  | 0, _ => [[]]
  | _, [] => [[]]
  | fuel + 1, c :: rest =>
    if p c then [] :: splitSepsF p fuel (rest.dropWhile p)
    else
      match splitSepsF p fuel rest with
      | seg :: segs => (c :: seg) :: segs
      | [] => [[c]]

def splitSeps (p : Char → Bool) (l : List Char) : List (List Char) :=
  splitSepsF p l.length l

/-- `example_indicators`. -/
def exampleIndicators : List String :=
  ["for example", "for instance", "such as", "like", "specifically",
   "to illustrate", "consider this", "imagine", "let's say", "e.g."]

/-- `flow_indicators`. -/
def flowIndicators : List String :=
  ["first", "second", "third", "next", "then", "finally", "lastly",
   "additionally", "furthermore", "moreover", "also", "besides",
   "however", "on the other hand", "conversely", "alternatively",
   "therefore", "thus", "consequently", "as a result", "because",
   "so", "in conclusion", "in summary", "overall"]

/-- `ambiguous_markers`. -/
def ambiguousMarkers : List String :=
  ["kind of", "sort of", "maybe", "perhaps", "i think", "i guess",
   "probably", "possibly", "might be", "could be", "not sure",
   "uh", "um", "hmm", "like", "you know"]

/-- `^\s*[-*•]\s+` at one `re.MULTILINE` anchor. -/
def bulletAt (s : List Char) : Bool :=
  match s.drop (runLen isPySpace s) with
  | c :: d :: _ => (c = '-' || c = '*' || c = '•') && isPySpace d
  | _ => false

/-- `^\s*\d+[.)]\s+` at one `re.MULTILINE` anchor. -/
def numberedAt (s : List Char) : Bool :=
  let r := s.drop (runLen isPySpace s)
  let d := runLen Char.isDigit r
  decide (d ≥ 1) &&
    (match r.drop d with
     | c :: e :: _ => (c = '.' || c = ')') && isPySpace e
     | _ => false)

/-- Check a predicate at every `re.MULTILINE` `^` anchor after the start. -/
def anyAnchorAux (p : List Char → Bool) : List Char → Bool
  | [] => false
  | c :: rest => (c = '\n' && p rest) || anyAnchorAux p rest

/-- Check a predicate at every `re.MULTILINE` `^` anchor. -/
def anyAnchor (p : List Char → Bool) (s : List Char) : Bool :=
  p s || anyAnchorAux p s

/-- `_calculate_clarity`. -/
def calculateClarity (answer : String) : ℚ :=
  if answer = "" then 0
  else
    let sentences := ((splitSeps (fun c => c = '.' || c = '!' || c = '?') answer.data).map
      pyStrip).filter (fun s => !s.isEmpty)
    let sentenceAdj : ℚ :=
      if !sentences.isEmpty then
        let avg : ℚ := ((sentences.map (fun s => (pySplitWs s).length)).sum : ℚ) /
          (sentences.length : ℚ)
        if avg ≤ 15 then 3 / 20
        else if avg ≤ 25 then 1 / 20
        else if avg > 40 then -(3 / 20)
        else 0
      else 0
    let answerLower := lowerChars answer.data
    let exampleAdj : ℚ :=
      if exampleIndicators.any (fun i => strContains answerLower i.data) then 3 / 20 else 0
    let flow_count := countContained flowIndicators answerLower
    let flowAdj : ℚ := min ((flow_count : ℚ) * (3 / 100)) (3 / 20)
    let ambiguous_count := countContained ambiguousMarkers answerLower
    let ambiguousAdj : ℚ := min ((ambiguous_count : ℚ) * (1 / 20)) (1 / 5)
    let structureAdj : ℚ :=
      if anyAnchor bulletAt answer.data || anyAnchor numberedAt answer.data then 1 / 10
      else 0
    min (max (1 / 2 + sentenceAdj + exampleAdj + flowAdj - ambiguousAdj + structureAdj) 0) 1

/-- `re.search(r"\d+%|\d+\.\d+|\d+ years|\d+ months", answer)` existence. -/
def hasNumericDetail : List Char → Bool
  | [] => false
  | c :: rest =>
    (let d := runLen Char.isDigit (c :: rest)
     let after := (c :: rest).drop d
     decide (d ≥ 1) &&
       ("%".data.isPrefixOf after
         || ['.'].isPrefixOf after && decide (runLen Char.isDigit (after.drop 1) ≥ 1)
         || " years".data.isPrefixOf after
         || " months".data.isPrefixOf after))
      || hasNumericDetail rest

/-- `concrete_indicators`. -/
def concreteIndicators : List String :=
  ["in my previous role", "at my last company", "i worked on",
   "we implemented", "the project involved", "for instance",
   "specifically", "one time when", "a situation where"]

/-- `nuance_indicators`. -/
def nuanceIndicators : List String :=
  ["however", "although", "while", "on the other hand", "conversely",
   "trade-off", "balance", "depends on", "consider", "alternative",
   "pros and cons", "advantage", "disadvantage", "challenge",
   "limitation", "it's important to note", "keep in mind"]

/-- `approach_indicators`. -/
def approachIndicators : List String :=
  ["first approach", "second method", "alternative way", "another option",
   "one way", "another way", "also", "additionally", "furthermore",
   "in addition", "besides", "moreover"]

/-- `_calculate_depth` (the `question_type` parameter is unused by the
source's scoring). -/
def calculateDepth (answer : String) : ℚ :=
  if answer = "" then 0
  else
    let answer_tokens := tokenize answer
    let unique_tokens := dedup answer_tokens
    let richnessAdj : ℚ :=
      if !answer_tokens.isEmpty then
        let vr : ℚ := (unique_tokens.length : ℚ) / (answer_tokens.length : ℚ)
        min (vr * (1 / 5)) (3 / 20)
      else 0
    let numbersAdj : ℚ := if hasNumericDetail answer.data then 3 / 20 else 0
    let answerLower := lowerChars answer.data
    let concrete_count := countContained concreteIndicators answerLower
    let concreteAdj : ℚ := min ((concrete_count : ℚ) * (2 / 25)) (1 / 5)
    let nuance_count := countContained nuanceIndicators answerLower
    let nuanceAdj : ℚ := min ((nuance_count : ℚ) * (1 / 20)) (3 / 20)
    let approach_count := countContained approachIndicators answerLower
    let approachAdj : ℚ := min ((approach_count : ℚ) * (3 / 50)) (9 / 50)
    let word_count := answer_tokens.length
    let lengthAdj : ℚ :=
      if word_count ≥ 150 then 1 / 10
      else if word_count ≥ 100 then 2 / 25
      else if word_count ≥ 50 then 1 / 20
      else if word_count < 20 then -(1 / 5)
      else 0
    min (max (3 / 10 + richnessAdj + numbersAdj + concreteAdj + nuanceAdj +
      approachAdj + lengthAdj) 0) 1

/-- Index of the first occurrence of `needle` in `hay`. -/
def findSub (needle : List Char) : List Char → Option Nat
  | [] => if needle.isPrefixOf [] then some 0 else none
  | c :: t =>
    if needle.isPrefixOf (c :: t) then some 0
    else (findSub needle t).map (fun n => n + 1)

/-- `re.search(r"first.*second.*third", s)`: sequential occurrence within
one newline-free span (`.` does not cross newlines). -/
def hasFirstSecondThird (s : List Char) : Bool :=
  (splitOnNl s).any (fun seg =>
    match findSub "first".data seg with
    | none => false
    | some i =>
      match findSub "second".data (seg.drop (i + 5)) with
      | none => false
      | some j => (findSub "third".data ((seg.drop (i + 5)).drop (j + 6))).isSome)

/-- `re.search(r"\d+%|\d+\.\d+", answer)` existence. -/
def hasMetrics : List Char → Bool
  | [] => false
  | c :: rest =>
    (let d := runLen Char.isDigit (c :: rest)
     let after := (c :: rest).drop d
     decide (d ≥ 1) &&
       ("%".data.isPrefixOf after
         || ['.'].isPrefixOf after && decide (runLen Char.isDigit (after.drop 1) ≥ 1)))
      || hasMetrics rest

/-- `_generate_evaluation_explanation`. -/
def generateEvaluationExplanation (relevance clarity depth : ℚ) : String :=
  let p1 :=
    if relevance ≥ 4 / 5 then
      "The answer directly addresses the question with strong alignment."
    else if relevance ≥ 3 / 5 then
      "The answer addresses most aspects of the question."
    else if relevance ≥ 2 / 5 then
      "The answer partially addresses the question but may miss some key points."
    else "The answer does not adequately address the question asked."
  let p2 :=
    if clarity ≥ 4 / 5 then "Communication is clear and well-structured."
    else if clarity ≥ 3 / 5 then
      "Communication is generally clear with minor improvements possible."
    else if clarity ≥ 2 / 5 then
      "Communication could be improved with better structure and examples."
    else "Communication needs significant improvement to be more understandable."
  let p3 :=
    if depth ≥ 4 / 5 then
      "Demonstrates strong subject knowledge with good detail and nuance."
    else if depth ≥ 3 / 5 then "Shows good understanding with reasonable detail provided."
    else if depth ≥ 2 / 5 then
      "Shows basic understanding but lacks depth and specific examples."
    else "Answer lacks sufficient detail and depth to demonstrate expertise."
  ". ".intercalate [p1, p2, p3]

/-- `_identify_strengths`. -/
def identifyStrengths (relevance clarity depth : ℚ) (answer : String) : List String :=
  let answerLower := lowerChars answer.data
  let strengths :=
    (if relevance ≥ 4 / 5 then ["Directly addresses the question"] else []) ++
    (if clarity ≥ 7 / 10 then ["Clear and well-structured communication"] else []) ++
    (if depth ≥ 7 / 10 then ["Demonstrates strong subject knowledge"] else []) ++
    (if strContains answerLower "example".data
        || strContains answerLower "for instance".data then
      ["Uses concrete examples to illustrate points"] else []) ++
    (if hasFirstSecondThird answerLower then ["Well-organized with clear structure"] else []) ++
    (if (["however", "although", "trade-off"] : List String).any
        (fun w => strContains answerLower w.data) then
      ["Shows awareness of nuance and complexity"] else []) ++
    (if hasMetrics answer.data then ["Uses specific metrics and data points"] else [])
  if strengths.isEmpty then ["Answered the question"] else strengths

/-- `_identify_weaknesses`. -/
def identifyWeaknesses (relevance clarity depth : ℚ) (answer : String) : List String :=
  let answerLower := lowerChars answer.data
  let weaknesses :=
    (if relevance < 1 / 2 then ["Does not fully address the question"] else []) ++
    (if clarity < 1 / 2 then ["Could improve clarity and structure"] else []) ++
    (if depth < 1 / 2 then ["Lacks depth and specific examples"] else []) ++
    (if (tokenize answer).length < 30 then ["Answer is too brief"] else []) ++
    (if strContains answerLower "kind of".data
        || strContains answerLower "sort of".data then
      ["Uses tentative language"] else []) ++
    (if !(["example", "for instance", "such as"] : List String).any
        (fun w => strContains answerLower w.data) then
      ["Could benefit from more concrete examples"] else []) ++
    (if !(["however", "although", "on the other hand"] : List String).any
        (fun w => strContains answerLower w.data) then
      ["Could discuss trade-offs or alternative approaches"] else [])
  if weaknesses.isEmpty then ["Minor areas for improvement exist"] else weaknesses

/-- `_generate_suggestions`. -/
def generateSuggestions (relevance clarity depth : ℚ) (answer : String) : List String :=
  let answerLower := lowerChars answer.data
  let suggestions :=
    (if relevance < 3 / 5 then ["Focus more directly on the core question asked"] else []) ++
    (if clarity < 3 / 5 then
      ["Use a more structured format with clear points",
       "Include examples to make your answer more concrete"] else []) ++
    (if depth < 3 / 5 then
      ["Provide more specific details and examples from your experience",
       "Discuss multiple approaches or considerations"] else []) ++
    (if (tokenize answer).length < 50 then ["Expand on your answer with more detail"] else []) ++
    (if !strContains answerLower "example".data then
      ["Add specific examples to illustrate your points"] else []) ++
    (if !(["however", "although", "trade-off"] : List String).any
        (fun w => strContains answerLower w.data) then
      ["Consider discussing trade-offs or alternative perspectives"] else [])
  if suggestions.isEmpty then ["Continue with this approach"] else suggestions

structure AnswerEvaluation where
  relevance_score : ℚ
  clarity_score : ℚ
  depth_score : ℚ
  overall_score : ℚ
  overall_score_percent : ℤ
  explanation : String
  strengths : List String
  weaknesses : List String
  suggestions : List String
deriving Repr, DecidableEq

/-- `evaluate_answer` (the `question_type` argument does not influence any
score in the source). -/
def evaluate_answer (question answer : String) : AnswerEvaluation :=
  let relevance := calculateRelevance question answer
  let clarity := calculateClarity answer
  let depth := calculateDepth answer
  let overall := relevance * (1 / 2) + depth * (3 / 10) + clarity * (1 / 5)
  { relevance_score := pyRoundTo 3 relevance
    clarity_score := pyRoundTo 3 clarity
    depth_score := pyRoundTo 3 depth
    overall_score := pyRoundTo 3 overall
    overall_score_percent := pyTrunc (overall * 100)
    explanation := generateEvaluationExplanation relevance clarity depth
    strengths := identifyStrengths relevance clarity depth answer
    weaknesses := identifyWeaknesses relevance clarity depth answer
    suggestions := generateSuggestions relevance clarity depth answer }

/-! ### `app.domain.policies.interview_policy` -/

/-- `_STOPWORDS` of the planner. -/
def planStopwords : List String :=
  ["the", "and", "to", "of", "a", "in", "for", "with", "on", "is", "are",
   "as", "at", "be", "or", "an", "we", "you", "your", "our", "will",
   "role", "requirements", "responsibilities", "experience"]

/-- The keyword loop of `_build_plan_from_job_only`: first-seen unique
keywords, breaking once `len(keywords) >= max_questions - 2` (checked
after each append); `seen` is the list of keywords collected so far. -/
def jobOnlyKeywords (n : Int) : List String → List String → List String
  | [], _ => []
  | t :: ts, seen =>
    if planStopwords.contains t || t.length < 3 then jobOnlyKeywords n ts seen
    else if seen.contains t then jobOnlyKeywords n ts seen
    else if (seen.length + 1 : Int) ≥ n - 2 then [t]
    else t :: jobOnlyKeywords n ts (t :: seen)

/-- The fixed introduction question of the job-only plan. -/
def introQuestionJobOnly : String :=
  "Briefly introduce yourself and summarize your relevant experience."

/-- `_build_plan_from_job_only` (only called with `max_questions ≥ 1`). -/
def buildPlanFromJobOnly (jd : String) (max_questions : Int) : List String :=
  let keywords := jobOnlyKeywords max_questions (tokenize jd) []
  let questions := introQuestionJobOnly ::
    (keywords.map (fun kw => "Tell me about a project where you used " ++ kw ++ ".") ++
      ["Describe a challenging problem you solved and how you approached it.",
       "Do you have any questions for us?"])
  questions.take max_questions.toNat

/-- `_truncate` (the source file's ellipsis literal is the three
characters `â€¦`). -/
def truncateText (text : List Char) : List Char :=
  let compact := List.intercalate [' '] (pySplitWs text)
  if compact.length ≤ 140 then compact
  else ((compact.take 139).reverse.dropWhile isPySpace).reverse ++ "â€¦".data

/-- The class `[a-z0-9]` of the lookarounds in `_term_count`. -/
def isLowerAlnum (c : Char) : Bool := c.isLower || c.isDigit

/-- Non-overlapping count of `term` at positions bounded by non-`[a-z0-9]`
characters (`term` nonempty). -/
def countBoundedAuxF (term : List Char) : Nat → Option Char → List Char → Nat
  | 0, _, _ => 0
  | _, _, [] => 0
  | fuel + 1, prev, c :: rest =>
    if term.isPrefixOf (c :: rest)
        && !(match prev with | some p => isLowerAlnum p | none => false)
        && !(match ((c :: rest).drop term.length).head? with
             | some nx => isLowerAlnum nx
             | none => false) then
      1 + countBoundedAuxF term fuel (((c :: rest).take (max term.length 1)).getLast?)
        ((c :: rest).drop (max term.length 1))
    else countBoundedAuxF term fuel (some c) rest

def countBoundedAux (term : List Char) (prev : Option Char) (s : List Char) : Nat :=
  countBoundedAuxF term s.length prev s

/-- Python `str.count` (non-overlapping, `needle` nonempty in use). -/
def countSubF (needle : List Char) : Nat → List Char → Nat
  | 0, _ => 0
  | _, [] => 0
  | fuel + 1, c :: rest =>
    if needle.isPrefixOf (c :: rest) then
      1 + countSubF needle fuel ((c :: rest).drop (max needle.length 1))
    else countSubF needle fuel rest

def countSub (needle : List Char) (s : List Char) : Nat := countSubF needle s.length s

/-- `_term_count`. -/
def termCount (text_lower term_lower : List Char) : Nat :=
  if !term_lower.isEmpty
      && term_lower.all (fun c => isLowerAlnum c || c = ' ') then
    countBoundedAux term_lower none text_lower
  else countSub term_lower text_lower

/-- `_rank_terms_by_job_frequency`: scoring is a pure function of the
term set's membership (the sort key `(-count, term)` is injective on
distinct terms), embedded over a duplicate-free list. -/
def rankTermsByJobFrequency (job_description : String) (terms : List String) :
    List String :=
  let text_lower := lowerChars job_description.data
  let scored := terms.filterMap (fun term =>
    let t := pyStrip (lowerChars term.data)
    if t.isEmpty then none
    else some (termCount text_lower t, t.asString))
  let sorted := List.insertionSort
    (fun a b => a.1 > b.1 ∨ (a.1 = b.1 ∧ a.2 ≤ b.2)) scored
  (sorted.filter (fun p => 0 < p.1)).map (fun p => p.2)

/-- `Counter(tokens).most_common(n)`: counts descending, ties in
first-insertion order (a stable sort). -/
def counterMostCommon (l : List String) (n : Nat) : List (String × Nat) :=
  let items := (dedup l).map (fun t => (t, countOcc t l))
  (List.insertionSort (fun a b => a.2 ≥ b.2) items).take n

/-- `add_matched`'s question text. -/
def matchedQuestion (term : String) : String :=
  "Tell me about the most impactful work you've done using " ++ term ++
    ". What was the problem, what did you build, and how did you measure success?"

/-- `add_gap`'s question text. -/
def gapQuestion (term : String) : String :=
  "This role involves " ++ term ++
    ". What experience do you have with it, and if it's new to you, how would you ramp up in your first 30 days?"

/-- The `while` loop interleaving matched-skill and gap questions:
each iteration takes one matched term (adding its question unless the
topic was asked, breaking early when the slots fill) and then one gap
term. -/
def interleaveLoopF (slots : Nat) :
    Nat → List String → List String → List String → List String → List String
  | 0, _, _, targeted, _ => targeted
  | fuel + 1, matched, gaps, targeted, asked =>
    if slots ≤ targeted.length then targeted
    else
      match matched, gaps with
      | [], [] => targeted
      | m :: mr, [] =>
        let (t1, a1) :=
          if asked.contains m then (targeted, asked)
          else (targeted ++ [matchedQuestion m], m :: asked)
        if slots ≤ t1.length then t1
        else interleaveLoopF slots fuel mr [] t1 a1
      | m :: mr, g :: gr =>
        let (t1, a1) :=
          if asked.contains m then (targeted, asked)
          else (targeted ++ [matchedQuestion m], m :: asked)
        if slots ≤ t1.length then t1
        else
          let (t2, a2) :=
            if a1.contains g then (t1, a1)
            else (t1 ++ [gapQuestion g], g :: a1)
          interleaveLoopF slots fuel mr gr t2 a2
      | [], g :: gr =>
        let (t2, a2) :=
          if asked.contains g then (targeted, asked)
          else (targeted ++ [gapQuestion g], g :: asked)
        interleaveLoopF slots fuel [] gr t2 a2

/-- Each iteration pops at least one pending term, so
`fuel = |matched| + |gaps|` never runs out. -/
def interleaveLoop (slots : Nat) (matched gaps targeted asked : List String) :
    List String :=
  interleaveLoopF slots (matched.length + gaps.length) matched gaps targeted asked

/-- The fallback filler loop. -/
def fillFallbacks (slots : Nat) (targeted : List String) : List String → List String
  | [] => targeted
  | f :: fs =>
    if slots ≤ targeted.length then targeted
    else fillFallbacks slots (targeted ++ [f]) fs

/-- `_build_plan_from_job_and_resume` (only called with `max_questions ≥ 1`
and a non-empty resume). -/
def buildPlanFromJobAndResume (job_description resume_text : String)
    (max_questions : Int) : List String :=
  let intro :=
    "Briefly introduce yourself and summarize your most relevant experience for this role."
  let closing := "Do you have any questions for us about the role, team, or next steps?"
  let behavioral :=
    "Describe a challenging problem you solved, how you approached it, and what you learned."
  let questions := [intro]
  let tail := (if max_questions ≥ 3 then [behavioral] else []) ++
    (if max_questions ≥ 2 then [closing] else [])
  let slots : Int := max_questions - questions.length - tail.length
  if slots ≤ 0 then (questions ++ tail).take max_questions.toNat
  else
    let jd_skills := extract_skills job_description
    let cv_skills := extract_skills resume_text
    let required0 := dedup (jd_skills.technical ++ jd_skills.soft)
    let jd_tokens := (tokenize job_description).filter
      (fun t => !planStopwords.contains t && t.length ≥ 3)
    let top25 := (counterMostCommon jd_tokens 25).map (fun p => p.1)
    let required_terms := dedup (required0 ++ top25)
    let resume_terms := dedup (cv_skills.technical ++ cv_skills.soft ++
      (tokenize resume_text).filter (fun t => t.length ≥ 3))
    let matched_terms := required_terms.filter (fun t => resume_terms.contains t)
    let gap_terms := required_terms.filter (fun t => !resume_terms.contains t)
    let matched_ranked := rankTermsByJobFrequency job_description matched_terms
    let gaps_ranked := rankTermsByJobFrequency job_description gap_terms
    let exp := extract_experience resume_text
    let highlight : Option String :=
      if !exp.achievements.isEmpty then exp.achievements.head?
      else if !exp.job_titles.isEmpty then exp.job_titles.head?
      else none
    let targeted0 : List String :=
      match highlight with
      | some h =>
        ["On your resume you mention: \"" ++ (truncateText h.data).asString ++
          "\". Can you walk me through the context, your specific contribution, and the outcome?"]
      | none => []
    let snat := slots.toNat
    let targeted := interleaveLoop snat matched_ranked gaps_ranked targeted0 []
    let targeted2 := fillFallbacks snat targeted
      ["What accomplishment are you most proud of, and what made it difficult?",
       "How do you like to work with product/engineering stakeholders when requirements are unclear?",
       "What's an example of a trade-off you made between speed and quality, and how did you decide?"]
    (questions ++ targeted2.take snat ++ tail).take max_questions.toNat

/-- `build_interview_plan` (an empty resume string is falsy and routes to
the job-only plan). -/
def build_interview_plan (job_description : String) (resume_text : Option String)
    (max_questions : Int) : List String :=
  if max_questions ≤ 0 then []
  else
    match resume_text with
    | some r =>
      if r ≠ "" then buildPlanFromJobAndResume job_description r max_questions
      else buildPlanFromJobOnly job_description max_questions
    | none => buildPlanFromJobOnly job_description max_questions

/-! ### Specification gadgets for the session lifecycle

Canonical shapes of session states reached from `engineStart` by
submitting answers in sequence: `midSession` after some turns are
answered (still active), `endSession` once every turn is answered. -/

/-- Turns still awaiting an answer. -/
def freshTurns (qs : List String) : List InterviewTurn :=
  qs.map (fun q => { question := q })

/-- Turns already answered, as (question, answer) pairs. -/
def doneTurns (ps : List (String × String)) : List InterviewTurn :=
  ps.map (fun p => { question := p.1, answer := some p.2 })

/-- An active session with `done` answered turns followed by `rest`
pending questions. -/
def midSession {DT : Type} (sid : String) (t0 : DT) (meta : List (String × Nat))
    (done : List (String × String)) (rest : List String) :
    InterviewSessionState DT :=
  { session_id := sid, status := "active",
    turns := doneTurns done ++ freshTurns rest,
    next_turn_index := done.length, started_at := t0,
    ended_at := none, metadata := meta }

/-- A completed session whose turns are all answered. -/
def endSession {DT : Type} (sid : String) (t0 now : DT)
    (meta : List (String × Nat)) (all : List (String × String)) :
    InterviewSessionState DT :=
  { session_id := sid, status := "completed", turns := doneTurns all,
    next_turn_index := all.length, started_at := t0,
    ended_at := some now, metadata := meta }

/-! ## Theorems -/

attribute [local semireducible] Rat.add Rat.mul Rat.inv Rat.sub

/-! ### Session state machine: infrastructure -/

theorem setAnswer_length (ts : List InterviewTurn) (i : Nat) (a : String) :
    (setAnswer ts i a).length = ts.length := by
  induction ts generalizing i with
  | nil => rfl
  | cons t ts ih =>
    cases i with
    | zero => rfl
    | succ j => simp [setAnswer, ih]

theorem setAnswer_getElem?_ne (ts : List InterviewTurn) (i : Nat) (a : String)
    (j : Nat) (h : j ≠ i) : (setAnswer ts i a)[j]? = ts[j]? := by
  induction ts generalizing i j with
  | nil => rfl
  | cons t ts ih =>
    cases i with
    | zero =>
      cases j with
      | zero => exact absurd rfl h
      | succ j' => simp [setAnswer]
    | succ i' =>
      cases j with
      | zero => simp [setAnswer]
      | succ j' =>
        simp only [setAnswer, List.getElem?_cons_succ]
        exact ih i' j' (fun hh => h (by rw [hh]))

theorem setAnswer_getElem?_eq (ts : List InterviewTurn) (i : Nat) (a : String) :
    (setAnswer ts i a)[i]? = (ts[i]?).map (fun t => { t with answer := some a }) := by
  induction ts generalizing i with
  | nil => rfl
  | cons t ts ih =>
    cases i with
    | zero => simp [setAnswer]
    | succ i' => simp [setAnswer, ih]

/-- C2: submitting an answer to a non-active session, or to a session with
no remaining turns, yields the invalid-state error — and, the embedding
being state-passing, produces no successor state, so the session is left
unchanged — while querying the current question in those same states
returns `none` rather than an error. -/
theorem submit_answer_invalid_state {DT : Type} (now : DT)
    (s : InterviewSessionState DT) (a : String)
    (h : s.status ≠ "active" ∨ s.turns.length ≤ s.next_turn_index) :
    (∃ e, s.submit_answer now a = .error e) ∧ s.current_question = none := by
  by_cases hs : s.status = "active"
  · have hlen : s.turns.length ≤ s.next_turn_index := by
      rcases h with h | h
      · exact absurd hs h
      · exact h
    constructor
    · exact ⟨"No remaining questions.",
        by simp [InterviewSessionState.submit_answer, hs, hlen]⟩
    · simp [InterviewSessionState.current_question, hs, hlen]
  · constructor
    · exact ⟨"Interview is not active.",
        by simp [InterviewSessionState.submit_answer, hs]⟩
    · simp [InterviewSessionState.current_question, hs]

theorem submit_answer_invalid_state_witness :
    (∃ e, InterviewSessionState.submit_answer (0 : Nat)
      { session_id := "s", status := "completed",
        turns := [{ question := "q" }], next_turn_index := 1,
        started_at := 0 } "a" = .error e) ∧
    InterviewSessionState.current_question
      ({ session_id := "s", status := "completed",
         turns := [{ question := "q" }], next_turn_index := 1,
         started_at := 0 } : InterviewSessionState Nat) = none :=
  submit_answer_invalid_state 0 _ "a" (Or.inl (by decide))

/-- C10: frame property of a successful `submit_answer` — only the current
turn's answer, the pointer, and (exactly on completion) the status and end
timestamp change; session id, start timestamp, metadata, every question,
and every other turn are untouched. -/
theorem submit_answer_frame {DT : Type} (now : DT)
    (s : InterviewSessionState DT) (a : String)
    (h1 : s.status = "active") (h2 : s.next_turn_index < s.turns.length) :
    ∃ s' : InterviewSessionState DT, s.submit_answer now a = .ok s' ∧
      s'.session_id = s.session_id ∧
      s'.started_at = s.started_at ∧
      s'.metadata = s.metadata ∧
      s'.next_turn_index = s.next_turn_index + 1 ∧
      s'.turns.length = s.turns.length ∧
      (∀ i : Nat, (s'.turns[i]?).map (fun t : InterviewTurn => t.question) =
        (s.turns[i]?).map (fun t : InterviewTurn => t.question)) ∧
      (∀ i : Nat, i ≠ s.next_turn_index → s'.turns[i]? = s.turns[i]?) ∧
      (s'.turns[s.next_turn_index]?).map (fun t : InterviewTurn => t.answer) = some (some a) ∧
      (if s.next_turn_index + 1 = s.turns.length
       then s'.status = "completed" ∧ s'.ended_at = some now
       else s'.status = s.status ∧ s'.ended_at = s.ended_at) := by
  have hq : ∀ i : Nat, ((setAnswer s.turns s.next_turn_index a)[i]?).map
      (fun t : InterviewTurn => t.question) =
      (s.turns[i]?).map (fun t : InterviewTurn => t.question) := by
    intro i
    by_cases hi : i = s.next_turn_index
    · subst hi
      rw [setAnswer_getElem?_eq, Option.map_map]
      rfl
    · rw [setAnswer_getElem?_ne _ _ _ _ hi]
  have hcur : (setAnswer s.turns s.next_turn_index a)[s.next_turn_index]?.map
      (fun t : InterviewTurn => t.answer) = some (some a) := by
    rw [setAnswer_getElem?_eq]
    have : ∃ t, s.turns[s.next_turn_index]? = some t := by
      exact ⟨s.turns[s.next_turn_index], List.getElem?_eq_getElem h2⟩
    obtain ⟨t, ht⟩ := this
    rw [ht]
    rfl
  by_cases hend : s.next_turn_index + 1 = s.turns.length
  · use { s with
      turns := setAnswer s.turns s.next_turn_index a
      next_turn_index := s.next_turn_index + 1
      status := "completed"
      ended_at := some now }
    refine ⟨?_, rfl, rfl, rfl, rfl, setAnswer_length _ _ _, hq, ?_, hcur, ?_⟩
    · simp only [InterviewSessionState.submit_answer, h1]
      rw [if_neg (by simp), if_neg (by omega), if_pos (by omega)]
    · intro i hi
      exact setAnswer_getElem?_ne _ _ _ _ hi
    · rw [if_pos hend]
      exact ⟨rfl, rfl⟩
  · use { s with
      turns := setAnswer s.turns s.next_turn_index a
      next_turn_index := s.next_turn_index + 1 }
    refine ⟨?_, rfl, rfl, rfl, rfl, setAnswer_length _ _ _, hq, ?_, hcur, ?_⟩
    · simp only [InterviewSessionState.submit_answer, h1]
      rw [if_neg (by simp), if_neg (by omega), if_neg (by omega)]
    · intro i hi
      exact setAnswer_getElem?_ne _ _ _ _ hi
    · rw [if_neg hend]
      exact ⟨rfl, rfl⟩

theorem submit_answer_frame_witness :
    ∃ s', InterviewSessionState.submit_answer (7 : Nat)
      { session_id := "s", status := "active",
        turns := [{ question := "q1" }, { question := "q2" }],
        next_turn_index := 0, started_at := 3 } "a" = .ok s' ∧
      s'.session_id = "s" ∧
      s'.started_at = 3 ∧
      s'.metadata = [] ∧
      s'.next_turn_index = 1 := by
  obtain ⟨s', hrun, hsid, hst, hmeta, hidx, _⟩ :=
    submit_answer_frame (7 : Nat)
      ({ session_id := "s", status := "active",
         turns := [{ question := "q1" }, { question := "q2" }],
         next_turn_index := 0, started_at := 3 } : InterviewSessionState Nat)
      "a" (by decide) (by decide)
  exact ⟨s', hrun, hsid, hst, hmeta, hidx⟩

theorem setAnswer_at_junction (xs : List InterviewTurn) (y : InterviewTurn)
    (ys : List InterviewTurn) (a : String) :
    setAnswer (xs ++ y :: ys) xs.length a = xs ++ { y with answer := some a } :: ys := by
  induction xs with
  | nil => rfl
  | cons x xs ih => simp [setAnswer, ih]

theorem submit_answer_mid_step {DT : Type} (now : DT) (sid : String) (t0 : DT)
    (meta : List (String × Nat)) (done : List (String × String))
    (r : String) (rs : List String) (a : String) :
    (midSession sid t0 meta done (r :: rs)).submit_answer now a =
      if rs.isEmpty then .ok (endSession sid t0 now meta (done ++ [(r, a)]))
      else .ok (midSession sid t0 meta (done ++ [(r, a)]) rs) := by
  have hset : setAnswer (doneTurns done ++ freshTurns (r :: rs)) done.length a =
      doneTurns done ++ { question := r, answer := some a } :: freshTurns rs := by
    have : freshTurns (r :: rs) = { question := r, answer := none } :: freshTurns rs := rfl
    rw [this]
    have hlen : (doneTurns done).length = done.length := by simp [doneTurns]
    rw [← hlen, setAnswer_at_junction]
  simp only [midSession, InterviewSessionState.submit_answer]
  rw [if_neg (by simp)]
  rw [if_neg (by simp [doneTurns, freshTurns])]
  cases rs with
  | nil =>
    rw [if_pos (by simp [doneTurns, freshTurns])]
    rw [hset]
    simp only [List.isEmpty_nil, if_true]
    simp [endSession, doneTurns, freshTurns]
  | cons r2 rs' =>
    rw [if_neg (by simp [doneTurns, freshTurns])]
    rw [hset]
    simp only [List.isEmpty_cons, Bool.false_eq_true, if_false]
    simp [midSession, doneTurns, freshTurns]

theorem submitList_mid_complete {DT : Type} (now : DT) (sid : String) (t0 : DT)
    (meta : List (String × Nat)) :
    ∀ (rest answers : List String) (done : List (String × String)),
      answers.length = rest.length → rest ≠ [] →
      submitList now (midSession sid t0 meta done rest) answers =
        .ok (endSession sid t0 now meta (done ++ rest.zip answers)) := by
  intro rest
  induction rest with
  | nil => intro answers done _ hne; exact absurd rfl hne
  | cons r rs ih =>
    intro answers done hlen _
    cases answers with
    | nil => simp at hlen
    | cons a as =>
      simp only [submitList, submit_answer_mid_step]
      cases rs with
      | nil =>
        have : as = [] := by simpa using hlen
        subst this
        simp [submitList]
      | cons r2 rs' =>
        rw [if_neg (by simp)]
        have hlen' : as.length = (r2 :: rs').length := by simpa using hlen
        show submitList now (midSession sid t0 meta (done ++ [(r, a)]) (r2 :: rs')) as = _
        rw [ih as (done ++ [(r, a)]) hlen' (by simp)]
        simp [List.zip_cons_cons]

theorem submitList_mid_partial {DT : Type} (now : DT) (sid : String) (t0 : DT)
    (meta : List (String × Nat)) :
    ∀ (answers rest : List String) (done : List (String × String)),
      answers.length < rest.length →
      submitList now (midSession sid t0 meta done rest) answers =
        .ok (midSession sid t0 meta
          (done ++ (rest.take answers.length).zip answers)
          (rest.drop answers.length)) := by
  intro answers
  induction answers with
  | nil => intro rest done _; simp [submitList]
  | cons a as ih =>
    intro rest done hlt
    cases rest with
    | nil => simp at hlt
    | cons r rs =>
      simp only [submitList, submit_answer_mid_step]
      rw [if_neg (by
        have : as.length < rs.length := by simpa using hlt
        cases rs with
        | nil => simp at this
        | cons _ _ => simp)]
      have hlt' : as.length < rs.length := by simpa using hlt
      show submitList now (midSession sid t0 meta (done ++ [(r, a)]) rs) as = _
      rw [ih rs (done ++ [(r, a)]) hlt']
      simp [List.zip_cons_cons]

theorem engineStart_eq_midSession {DT : Type}
    (planner : String → String → Int → List String) (sid : String) (t0 : DT)
    (jd cv : String) (n : Int) :
    engineStart planner sid t0 jd cv n =
      midSession sid t0
        [("job_description_chars", jd.length), ("resume_text_chars", cv.length)]
        [] (planner jd cv n) := by
  simp [engineStart, midSession, doneTurns, freshTurns]

theorem midSession_current_question {DT : Type} (sid : String) (t0 : DT)
    (meta : List (String × Nat)) (done : List (String × String))
    (r : String) (rest : List String) :
    (midSession sid t0 meta done (r :: rest)).current_question = some r := by
  simp only [midSession, InterviewSessionState.current_question]
  rw [if_neg (by simp)]
  rw [if_neg (by simp [doneTurns, freshTurns])]
  have hlen : (doneTurns done).length = done.length := by simp [doneTurns]
  rw [List.getElem?_append_right (by omega)]
  simp [hlen, freshTurns]

theorem doneTurns_getElem?_answer (ps : List (String × String)) (i : Nat) :
    ((doneTurns ps)[i]?).map (fun t : InterviewTurn => t.answer) =
      (ps[i]?).map (fun p => some p.2) := by
  induction ps generalizing i with
  | nil => rfl
  | cons p ps ih =>
    cases i with
    | zero => simp [doneTurns]
    | succ j => simp [doneTurns] at ih ⊢; exact ih j

theorem zip_getElem?_snd (qs as : List String) (h : as.length = qs.length) (i : Nat) :
    ((qs.zip as)[i]?).map (fun p : String × String => p.2) = as[i]? := by
  induction qs generalizing as i with
  | nil =>
    cases as with
    | nil => rfl
    | cons a as => simp at h
  | cons q qs ih =>
    cases as with
    | nil => simp at h
    | cons a as =>
      cases i with
      | zero => simp [List.zip_cons_cons]
      | succ j =>
        simp only [List.zip_cons_cons, List.getElem?_cons_succ]
        exact ih as (by simpa using h) j

/-- C1: a session started from a non-empty plan begins active at turn 0
with all answers empty; submitting answers `a_1..a_N` in sequence
completes it — `next_question` then yields `none`, the stored turns are
the planned questions paired with the submitted answers in order — the
status flips to completed exactly when the pointer reaches the turn
count (every proper prefix of the run leaves it active with the pointer
at the number of answers submitted), and after only the first answer the
next question is the second planned question. -/
theorem interview_session_lifecycle {DT : Type}
    (planner : String → String → Int → List String) (sid : String) (t0 now : DT)
    (jd cv : String) (n : Int) (answers : List String)
    (hN : 1 ≤ (planner jd cv n).length)
    (hlen : answers.length = (planner jd cv n).length) :
    (engineStart planner sid t0 jd cv n).status = "active" ∧
    (engineStart planner sid t0 jd cv n).next_turn_index = 0 ∧
    (∀ t ∈ (engineStart planner sid t0 jd cv n).turns, t.answer = none) ∧
    (∃ sF : InterviewSessionState DT,
      submitList now (engineStart planner sid t0 jd cv n) answers = .ok sF ∧
      sF.status = "completed" ∧
      sF.next_turn_index = (planner jd cv n).length ∧
      engineNextQuestion sF = none ∧
      sF.turns = doneTurns ((planner jd cv n).zip answers) ∧
      (∀ i : Nat, (sF.turns[i]?).map (fun t : InterviewTurn => t.answer) =
        (answers[i]?).map some)) ∧
    (∀ k, k < answers.length →
      ∃ sk : InterviewSessionState DT,
        submitList now (engineStart planner sid t0 jd cv n) (answers.take k) = .ok sk ∧
        sk.status = "active" ∧ sk.next_turn_index = k) ∧
    (∀ a1 : String, 2 ≤ (planner jd cv n).length →
      ∃ s1 : InterviewSessionState DT,
        submitList now (engineStart planner sid t0 jd cv n) [a1] = .ok s1 ∧
        engineNextQuestion s1 = (planner jd cv n)[1]?) := by
  set qs := planner jd cv n with hqs
  set meta := [("job_description_chars", jd.length), ("resume_text_chars", cv.length)]
    with hmeta
  have hstart : engineStart planner sid t0 jd cv n = midSession sid t0 meta [] qs :=
    engineStart_eq_midSession planner sid t0 jd cv n
  refine ⟨by rw [hstart]; rfl, by rw [hstart]; rfl, ?_, ?_, ?_, ?_⟩
  · intro t ht
    rw [hstart] at ht
    simp only [midSession, doneTurns, freshTurns, List.map_nil, List.nil_append,
      List.mem_map] at ht
    obtain ⟨q, _, rfl⟩ := ht
    rfl
  · refine ⟨endSession sid t0 now meta (qs.zip answers), ?_, rfl, ?_, rfl, ?_, ?_⟩
    · rw [hstart]
      have := submitList_mid_complete now sid t0 meta qs answers [] hlen
        (by intro hnil; rw [hnil] at hN; simp at hN)
      simpa using this
    · simp [endSession, List.length_zip, hlen]
    · rfl
    · intro i
      show ((doneTurns (qs.zip answers))[i]?).map (fun t : InterviewTurn => t.answer) = _
      rw [doneTurns_getElem?_answer]
      have := zip_getElem?_snd qs answers hlen i
      calc ((qs.zip answers)[i]?).map (fun p => some p.2)
          = (((qs.zip answers)[i]?).map (fun p : String × String => p.2)).map some := by
            cases (qs.zip answers)[i]? <;> rfl
        _ = (answers[i]?).map some := by rw [this]
  · intro k hk
    refine ⟨midSession sid t0 meta ((qs.take k).zip (answers.take k)) (qs.drop k),
      ?_, rfl, ?_⟩
    · rw [hstart]
      have hklen : (answers.take k).length = k := by
        rw [List.length_take]; omega
      have := submitList_mid_partial now sid t0 meta (answers.take k) qs []
        (by rw [hklen]; omega)
      rw [hklen] at this
      simpa using this
    · simp only [midSession]
      rw [List.length_zip]
      simp only [List.length_take]
      omega
  · intro a1 h2
    refine ⟨midSession sid t0 meta ((qs.take 1).zip [a1]) (qs.drop 1), ?_, ?_⟩
    · rw [hstart]
      have := submitList_mid_partial now sid t0 meta [a1] qs []
        (by simp only [List.length_cons, List.length_nil]; omega)
      simpa using this
    · have hne : qs ≠ [] := by
        intro hnil
        rw [hnil] at hN
        simp at hN
      obtain ⟨q0, qs1, hq0⟩ := List.exists_cons_of_ne_nil hne
      have hne1 : qs1 ≠ [] := by
        intro hnil
        rw [hq0, hnil] at h2
        simp at h2
      obtain ⟨q1, qs2, hq1⟩ := List.exists_cons_of_ne_nil hne1
      rw [hq0, hq1]
      show (midSession sid t0 meta _ (q1 :: qs2)).current_question = _
      rw [midSession_current_question]
      simp

theorem interview_session_lifecycle_witness :
    ∃ sF : InterviewSessionState Nat,
      submitList 9 (engineStart (fun _ _ _ => ["q1", "q2"]) "sid" 3 "jd" "cv" 2)
        ["a1", "a2"] = .ok sF ∧
      sF.status = "completed" ∧
      engineNextQuestion sF = none ∧
      sF.turns = doneTurns [("q1", "a1"), ("q2", "a2")] := by
  obtain ⟨-, -, -, ⟨sF, hrun, hst, -, hnq, hturns, -⟩, -, -⟩ :=
    @interview_session_lifecycle Nat (fun _ _ _ => ["q1", "q2"])
      "sid" 3 9 "jd" "cv" 2 ["a1", "a2"] (by decide) (by decide)
  exact ⟨sF, hrun, hst, hnq, hturns⟩

/-! ### Tokenizer -/

theorem isTokChar_toLower (c : Char) (h : isTokChar c = true) :
    ((Char.toLower c).isLower || (Char.toLower c).isDigit) = true := by
  simp only [isTokChar, Bool.or_eq_true] at h
  rcases h with h | h
  · simp only [Char.isAlpha, Bool.or_eq_true] at h
    rcases h with h | h
    · simp only [Char.isUpper, Bool.and_eq_true, decide_eq_true_eq] at h
      obtain ⟨h1, h2⟩ := h
      have n1 : 65 ≤ c.toNat := UInt32.le_toNat_of_le (by decide) h1
      have n2 : c.toNat ≤ 90 := UInt32.toNat_le_of_le (by decide) h2
      have hlow : Char.toLower c = Char.ofNat (c.toNat + 32) := by
        rw [Char.toLower, if_pos ⟨n1, n2⟩]
      rw [hlow]
      set n := c.toNat with hn
      interval_cases n <;> decide
    · simp only [Char.isLower, Bool.and_eq_true, decide_eq_true_eq] at h
      obtain ⟨h1, h2⟩ := h
      have n1 : 97 ≤ c.toNat := UInt32.le_toNat_of_le (by decide) h1
      have n2 : c.toNat ≤ 122 := UInt32.toNat_le_of_le (by decide) h2
      have hlow : Char.toLower c = c := by
        rw [Char.toLower, if_neg (by omega)]
      rw [hlow]
      simp only [Char.isLower, Bool.or_eq_true, Bool.and_eq_true, decide_eq_true_eq]
      exact Or.inl ⟨h1, h2⟩
  · simp only [Char.isDigit, Bool.and_eq_true, decide_eq_true_eq] at h
    obtain ⟨h1, h2⟩ := h
    have n1 : 48 ≤ c.toNat := UInt32.le_toNat_of_le (by decide) h1
    have n2 : c.toNat ≤ 57 := UInt32.toNat_le_of_le (by decide) h2
    have hlow : Char.toLower c = c := by
      rw [Char.toLower, if_neg (by omega)]
    rw [hlow]
    simp only [Char.isDigit, Bool.or_eq_true, Bool.and_eq_true, decide_eq_true_eq]
    exact Or.inr ⟨h1, h2⟩

theorem tokenizeAuxF_sound (fuel : Nat) :
    ∀ (l : List Char) (t : List Char), t ∈ tokenizeAuxF fuel l →
      t ≠ [] ∧ ∀ c ∈ t, (c.isLower || c.isDigit) = true := by
  induction fuel with
  | zero => intro l t ht; simp [tokenizeAuxF] at ht
  | succ f ih =>
    intro l t ht
    cases l with
    | nil => simp [tokenizeAuxF] at ht
    | cons c cs =>
      simp only [tokenizeAuxF] at ht
      by_cases hc : isTokChar c = true
      · rw [if_pos hc] at ht
        rcases List.mem_cons.mp ht with h | h
        · subst h
          constructor
          · simp [lowerChars, List.takeWhile_cons, hc]
          · intro x hx
            simp only [lowerChars, List.mem_map] at hx
            obtain ⟨d, hd, rfl⟩ := hx
            exact isTokChar_toLower d (List.mem_takeWhile_imp hd)
        · exact ih _ _ h
      · rw [if_neg hc] at ht
        exact ih _ _ ht

/-- C9: every token produced by `tokenize` is a non-empty lowercase
alphanumeric word, and the empty string tokenizes to the empty list. -/
theorem tokenize_lower_alnum (T : String) :
    (∀ t ∈ tokenize T, t ≠ "" ∧ ∀ c ∈ t.data, (c.isLower || c.isDigit) = true) ∧
      tokenize "" = [] := by
  constructor
  · intro t ht
    simp only [tokenize, List.mem_map] at ht
    obtain ⟨tc, htc, rfl⟩ := ht
    obtain ⟨hne, hch⟩ := tokenizeAuxF_sound _ _ tc htc
    constructor
    · intro hempty
      apply hne
      have : (List.asString tc).data = tc := rfl
      rw [hempty] at this
      exact this.symm
    · intro c hc
      exact hch c hc
  · rfl

theorem tokenize_lower_alnum_witness :
    "hello2" ∈ tokenize "Hello2, World!" ∧ "hello2" ≠ "" :=
  ⟨by decide, ((tokenize_lower_alnum "Hello2, World!").1 "hello2" (by decide)).1⟩

/-! ### Skill extraction: the findall capture-group slip -/

/-- C5: on `"python 3.8"` the version pattern's capture group makes
`re.findall` return `".8"`, so the technical list receives `".8"` and not
the matched mention `"python 3.8"`; a group-less certification pattern
such as `"aws certified"` does fold the matched text in. -/
theorem skill_pattern_findall_group_slip :
    (extract_skills "python 3.8").technical = ["python", ".8"] ∧
    "python 3.8" ∉ (extract_skills "python 3.8").technical ∧
    (extract_skills "aws certified").technical = ["aws", "aws certified"] :=
  ⟨by decide, by decide, by decide⟩

/-! ### Explanation percent (C4) -/

theorem intercalate_go_exists (s : String) (as : List String) :
    ∀ acc : String, ∃ r : String, String.intercalate.go acc s as = acc ++ r := by
  induction as with
  | nil => intro acc; exact ⟨"", by simp [String.intercalate.go]⟩
  | cons a as ih =>
    intro acc
    obtain ⟨r, hr⟩ := ih (acc ++ s ++ a)
    refine ⟨s ++ a ++ r, ?_⟩
    have hgo : String.intercalate.go acc s (a :: as) =
        String.intercalate.go (acc ++ s ++ a) s as := rfl
    rw [hgo, hr]
    simp [String.append_assoc]

theorem intercalate_cons_exists (s x : String) (xs : List String) :
    ∃ r : String, String.intercalate s (x :: xs) = x ++ r := by
  simpa [String.intercalate] using intercalate_go_exists s xs x

theorem generateExplanation_prefix (s e d : ℚ) (js rs : List String)
    (jr : ReqExperience) (rel : Option String) (re : ExperienceResult)
    (red : EducationResult) :
    ∃ rest : String,
      generateExplanation s e d js rs jr rel re red =
        "Overall Match Score: " ++
          intRepr (pyTrunc ((s * (1 / 2) + e * (3 / 10) + d * (3 / 20) + 1 / 20) * 100))
          ++ "%" ++ rest := by
  simp only [generateExplanation]
  obtain ⟨r, hr⟩ := intercalate_cons_exists ". " _ _
  rw [hr]
  exact ⟨r, by simp [String.append_assoc]⟩

/-- C4 counterexample: for job description `"python"` against the empty
resume, the stored percent is 0 but the explanation's leading percent is
5 (the source builds it from a constant `0.05` term in place of
`keyword_overlap * 0.05`). -/
theorem explanation_percent_counterexample :
    (calculate_match_score "python" "").overall_score_percent = 0 ∧
    (calculate_match_score "python" "").explanation =
      "Overall Match Score: 5%. Missing required skills: python" :=
  ⟨by decide, by decide⟩

/-- C4 (amended): the integer in the leading `Overall Match Score: X%`
of the explanation is `int(100 * (0.50*skills + 0.30*experience +
0.15*education + 0.05))` — the keyword-overlap term replaced by the
constant `0.05` — which coincides with `overall_score_percent` only when
the keyword-overlap contribution is the full `0.05`. -/
theorem explanation_percent_formula (jd resume : String) :
    ∃ rest : String,
      (calculate_match_score jd resume).explanation =
        "Overall Match Score: " ++
          intRepr (pyTrunc ((scoreSkillsMatch (extract_skills jd).technical
                (extract_skills resume).technical * (1 / 2)
              + scoreExperienceMatch (extractRequiredExperience jd)
                (extract_experience resume) * (3 / 10)
              + scoreEducationMatch (extractRequiredEducation jd)
                (extract_education resume) * (3 / 20)
              + 1 / 20) * 100)) ++ "%" ++ rest := by
  exact generateExplanation_prefix
    (scoreSkillsMatch (extract_skills jd).technical (extract_skills resume).technical)
    (scoreExperienceMatch (extractRequiredExperience jd) (extract_experience resume))
    (scoreEducationMatch (extractRequiredEducation jd) (extract_education resume))
    (extract_skills jd).technical (extract_skills resume).technical
    (extractRequiredExperience jd) none (extract_experience resume)
    (extract_education resume)

/-! ### Answer evaluator on the empty answer (C8) -/

/-- C8: for any question, the empty answer scores 0 on relevance, clarity
and depth, and the overall percent is 0. -/
theorem evaluate_answer_empty_zero (q : String) :
    (evaluate_answer q "").relevance_score = 0 ∧
    (evaluate_answer q "").clarity_score = 0 ∧
    (evaluate_answer q "").depth_score = 0 ∧
    (evaluate_answer q "").overall_score_percent = 0 := by
  have hrel : calculateRelevance q "" = 0 := by
    rw [calculateRelevance, if_pos]
    simp
  have hcl : calculateClarity "" = 0 := by
    rw [calculateClarity, if_pos rfl]
  have hdep : calculateDepth "" = 0 := by
    rw [calculateDepth, if_pos rfl]
  have hround : pyRoundTo 3 (0 : ℚ) = 0 := by decide
  have hzero : (0 : ℚ) * (1 / 2) + 0 * (3 / 10) + 0 * (1 / 5) = 0 := by norm_num
  have htr : pyTrunc (0 * 100 : ℚ) = 0 := by decide
  have htr0 : pyTrunc (0 : ℚ) = 0 := by decide
  refine ⟨?_, ?_, ?_, ?_⟩ <;>
    simp [evaluate_answer, hrel, hcl, hdep, hround, hzero, htr, htr0]

/-! ### Self-match skills score (C7) -/

theorem dedup_map_ne_nil {α β : Type} [DecidableEq β] (f : α → β) (l : List α)
    (h : l ≠ []) : dedup (l.map f) ≠ [] := by
  cases l with
  | nil => exact absurd rfl h
  | cons x xs => simp [dedup, dedupAux]

theorem filter_contains_self (D : List String) :
    D.filter (fun s => D.contains s) = D := by
  apply List.filter_eq_self.mpr
  intro x hx
  simpa using hx

theorem scoreSkillsMatch_self (l : List String) (h : l ≠ []) :
    scoreSkillsMatch l l = 1 := by
  have hne : dedup (l.map lowerString) ≠ [] := dedup_map_ne_nil lowerString l h
  have hlen : (dedup (l.map lowerString)).length ≠ 0 := by
    intro h0
    exact hne (List.eq_nil_of_length_eq_zero h0)
  rw [scoreSkillsMatch]
  rw [if_neg (by simpa [List.isEmpty_iff] using h)]
  simp only [filter_contains_self]
  rw [if_neg (by simpa [List.isEmpty_iff] using hne)]
  rw [if_neg (by simpa [List.isEmpty_iff] using hne)]
  exact div_self (by exact_mod_cast hlen)

/-- C7: scoring a job description against itself yields a skills-match
component of exactly 1 whenever its extracted technical skill set is
non-empty (required and resume skills are the same extraction, so the
overlap is total). -/
theorem self_match_skills_one (jd : String)
    (h : (extract_skills jd).technical ≠ []) :
    (calculate_match_score jd jd).component_scores.skills_match = 1 ∧
    scoreSkillsMatch (extract_skills jd).technical (extract_skills jd).technical = 1 := by
  have hraw := scoreSkillsMatch_self (extract_skills jd).technical h
  constructor
  · show pyRoundTo 3 (scoreSkillsMatch (extract_skills jd).technical
      (extract_skills jd).technical) = 1
    rw [hraw]
    decide
  · exact hraw

theorem self_match_skills_one_witness :
    (extract_skills "python").technical ≠ [] ∧
    (calculate_match_score "python" "python").component_scores.skills_match = 1 :=
  ⟨by decide, (self_match_skills_one "python" (by decide)).1⟩

/-! ### Match scorer: weights and bounds (C3) -/

theorem scoreSkillsMatch_bounds (js rs : List String) :
    0 ≤ scoreSkillsMatch js rs ∧ scoreSkillsMatch js rs ≤ 1 := by
  rw [scoreSkillsMatch]
  by_cases h1 : js.isEmpty
  · rw [if_pos h1]; norm_num
  · rw [if_neg h1]
    by_cases h2 : (dedup (js.map lowerString)).isEmpty
    · rw [if_pos h2]; norm_num
    · rw [if_neg h2]
      by_cases h3 : (dedup (rs.map lowerString)).isEmpty
      · rw [if_pos h3]; norm_num
      · rw [if_neg h3]
        have hpos : 0 < ((dedup (js.map lowerString)).length : ℚ) := by
          have : dedup (js.map lowerString) ≠ [] := by
            simpa [List.isEmpty_iff] using h2
          have : 0 < (dedup (js.map lowerString)).length :=
            List.length_pos.mpr this
          exact_mod_cast this
        have hle : (((dedup (js.map lowerString)).filter
            (fun s => (dedup (rs.map lowerString)).contains s)).length : ℚ) ≤
            ((dedup (js.map lowerString)).length : ℚ) := by
          exact_mod_cast List.length_filter_le _ _
        constructor
        · positivity
        · rw [div_le_one hpos]
          exact hle

theorem scoreExperienceMatch_bounds (jr : ReqExperience) (re : ExperienceResult) :
    0 ≤ scoreExperienceMatch jr re ∧ scoreExperienceMatch jr re ≤ 1 := by
  rw [scoreExperienceMatch]
  refine ⟨le_min (add_nonneg ?_ ?_) (by norm_num), min_le_right _ _⟩
  · dsimp only
    repeat' split
    all_goals norm_num
  · dsimp only
    repeat' split
    all_goals norm_num

theorem scoreEducationMatch_bounds (jr : ReqEducation) (re : EducationResult) :
    0 ≤ scoreEducationMatch jr re ∧ scoreEducationMatch jr re ≤ 1 := by
  rw [scoreEducationMatch]
  refine ⟨le_min (add_nonneg ?_ ?_) (by norm_num), min_le_right _ _⟩
  · dsimp only
    repeat' split
    all_goals norm_num
  · dsimp only
    repeat' split
    all_goals norm_num

theorem scoreKeywordOverlap_bounds (jd resume : String) :
    0 ≤ scoreKeywordOverlap jd resume ∧ scoreKeywordOverlap jd resume ≤ 1 := by
  rw [scoreKeywordOverlap]
  by_cases h1 : ((dedup (tokenize jd)).filter
      (fun k => !scorerStopWords.contains k && decide (k.length > 2))).isEmpty
  · rw [if_pos h1]; norm_num
  · rw [if_neg h1]
    set keys := (dedup (tokenize jd)).filter
      (fun k => !scorerStopWords.contains k && decide (k.length > 2)) with hkeys
    by_cases h2 : (keys.map (fun k => countOcc k (tokenize jd))).sum = 0
    · rw [if_pos h2]; norm_num
    · rw [if_neg h2]
      have hpos : 0 < ((keys.map (fun k => countOcc k (tokenize jd))).sum : ℚ) := by
        have : 0 < (keys.map (fun k => countOcc k (tokenize jd))).sum :=
          Nat.pos_of_ne_zero h2
        exact_mod_cast this
      have hle : (keys.map (fun k =>
          if 0 < countOcc k (tokenize resume) then
            min (countOcc k (tokenize jd)) (countOcc k (tokenize resume))
          else 0)).sum ≤ (keys.map (fun k => countOcc k (tokenize jd))).sum := by
        apply List.sum_le_sum
        intro k _
        split
        · exact min_le_left _ _
        · exact Nat.zero_le _
      constructor
      · positivity
      · rw [div_le_one hpos]
        exact_mod_cast hle

theorem pyRoundInt_nonneg (y : ℚ) (h : 0 ≤ y) : 0 ≤ pyRoundInt y := by
  have hf : (0 : ℤ) ≤ ⌊y⌋ := Int.floor_nonneg.mpr h
  rw [pyRoundInt]
  split
  · exact hf
  · split
    · omega
    · split <;> omega

theorem pyRoundInt_le (y : ℚ) (n : ℤ) (h : y ≤ n) : pyRoundInt y ≤ n := by
  have hf : ⌊y⌋ ≤ n := by
    have := Int.floor_le_floor h
    simpa using this
  have hplus : y - ⌊y⌋ > 0 → ⌊y⌋ + 1 ≤ n := by
    intro hfr
    by_contra hc
    push_neg at hc
    have hn : n ≤ ⌊y⌋ := by omega
    have h1 : (n : ℚ) ≤ (⌊y⌋ : ℚ) := by exact_mod_cast hn
    have h2 : (⌊y⌋ : ℚ) ≤ y := Int.floor_le y
    have : y - ⌊y⌋ ≤ 0 := by linarith
    linarith
  rw [pyRoundInt]
  split
  · exact hf
  · next h1 =>
    split
    · next h2 => exact hplus (by linarith)
    · next h2 =>
      push_neg at h1 h2
      have heq : y - ⌊y⌋ = 1 / 2 := le_antisymm h2 h1
      split
      · exact hf
      · exact hplus (by rw [heq]; norm_num)

theorem pyRoundTo_unit_bounds (k : ℕ) (x : ℚ) (h0 : 0 ≤ x) (h1 : x ≤ 1) :
    0 ≤ pyRoundTo k x ∧ pyRoundTo k x ≤ 1 := by
  have hb : (0 : ℚ) < 10 ^ k := by positivity
  have hn : 0 ≤ pyRoundInt (x * 10 ^ k) :=
    pyRoundInt_nonneg _ (by positivity)
  have hle : pyRoundInt (x * 10 ^ k) ≤ (10 ^ k : ℤ) := by
    apply pyRoundInt_le
    push_cast
    calc x * 10 ^ k ≤ 1 * 10 ^ k := by
          apply mul_le_mul_of_nonneg_right h1 (le_of_lt hb)
      _ = 10 ^ k := one_mul _
  constructor
  · rw [pyRoundTo]
    apply div_nonneg _ (le_of_lt hb)
    exact_mod_cast hn
  · rw [pyRoundTo, div_le_one hb]
    exact_mod_cast hle

/-- C3: `calculate_match_score` reports the four component scores rounded
to three decimals, the overall score is the fixed 0.50/0.30/0.15/0.05
weighting of the raw components (rounded to three decimals), the percent
is the integer part of 100 times the raw overall, and every reported
component as well as the overall score lies in `[0, 1]`. -/
theorem calculate_match_score_weights_and_bounds (jd resume : String) :
    ∃ s e d k : ℚ,
      s = scoreSkillsMatch (extract_skills jd).technical (extract_skills resume).technical ∧
      e = scoreExperienceMatch (extractRequiredExperience jd) (extract_experience resume) ∧
      d = scoreEducationMatch (extractRequiredEducation jd) (extract_education resume) ∧
      k = scoreKeywordOverlap jd resume ∧
      (calculate_match_score jd resume).component_scores =
        { skills_match := pyRoundTo 3 s, experience_match := pyRoundTo 3 e,
          education_match := pyRoundTo 3 d, keyword_overlap := pyRoundTo 3 k } ∧
      (calculate_match_score jd resume).overall_score =
        pyRoundTo 3 (s * (1 / 2) + e * (3 / 10) + d * (3 / 20) + k * (1 / 20)) ∧
      (calculate_match_score jd resume).overall_score_percent =
        ⌊(s * (1 / 2) + e * (3 / 10) + d * (3 / 20) + k * (1 / 20)) * 100⌋ ∧
      (0 ≤ (calculate_match_score jd resume).component_scores.skills_match ∧
        (calculate_match_score jd resume).component_scores.skills_match ≤ 1) ∧
      (0 ≤ (calculate_match_score jd resume).component_scores.experience_match ∧
        (calculate_match_score jd resume).component_scores.experience_match ≤ 1) ∧
      (0 ≤ (calculate_match_score jd resume).component_scores.education_match ∧
        (calculate_match_score jd resume).component_scores.education_match ≤ 1) ∧
      (0 ≤ (calculate_match_score jd resume).component_scores.keyword_overlap ∧
        (calculate_match_score jd resume).component_scores.keyword_overlap ≤ 1) ∧
      (0 ≤ (calculate_match_score jd resume).overall_score ∧
        (calculate_match_score jd resume).overall_score ≤ 1) := by
  obtain ⟨hs0, hs1⟩ := scoreSkillsMatch_bounds (extract_skills jd).technical
    (extract_skills resume).technical
  obtain ⟨he0, he1⟩ := scoreExperienceMatch_bounds (extractRequiredExperience jd)
    (extract_experience resume)
  obtain ⟨hd0, hd1⟩ := scoreEducationMatch_bounds (extractRequiredEducation jd)
    (extract_education resume)
  obtain ⟨hk0, hk1⟩ := scoreKeywordOverlap_bounds jd resume
  set s := scoreSkillsMatch (extract_skills jd).technical (extract_skills resume).technical
  set e := scoreExperienceMatch (extractRequiredExperience jd) (extract_experience resume)
  set d := scoreEducationMatch (extractRequiredEducation jd) (extract_education resume)
  set k := scoreKeywordOverlap jd resume
  have hov0 : 0 ≤ s * (1 / 2) + e * (3 / 10) + d * (3 / 20) + k * (1 / 20) := by
    positivity
  have hov1 : s * (1 / 2) + e * (3 / 10) + d * (3 / 20) + k * (1 / 20) ≤ 1 := by
    nlinarith
  have hpercent : (calculate_match_score jd resume).overall_score_percent =
      ⌊(s * (1 / 2) + e * (3 / 10) + d * (3 / 20) + k * (1 / 20)) * 100⌋ := by
    show pyTrunc ((s * (1 / 2) + e * (3 / 10) + d * (3 / 20) + k * (1 / 20)) * 100) = _
    rw [pyTrunc, if_pos (by positivity)]
  refine ⟨s, e, d, k, rfl, rfl, rfl, rfl, rfl, rfl, hpercent,
    pyRoundTo_unit_bounds 3 s hs0 hs1,
    pyRoundTo_unit_bounds 3 e he0 he1,
    pyRoundTo_unit_bounds 3 d hd0 hd1,
    pyRoundTo_unit_bounds 3 k hk0 hk1,
    pyRoundTo_unit_bounds 3 _ hov0 hov1⟩

/-! ### Interview planner (C6) -/

theorem take_toNat_length_le (l : List String) (n : Int) (h : 1 ≤ n) :
    ((l.take n.toNat).length : Int) ≤ n := by
  have h1 : (l.take n.toNat).length ≤ n.toNat := by
    rw [List.length_take]
    omega
  have h2 : ((l.take n.toNat).length : Int) ≤ (n.toNat : Int) := by exact_mod_cast h1
  have h3 : (n.toNat : Int) = n := Int.toNat_of_nonneg (by omega)
  omega

theorem buildPlanFromJobOnly_length (jd : String) (n : Int) (h : 1 ≤ n) :
    ((buildPlanFromJobOnly jd n).length : Int) ≤ n := by
  rw [buildPlanFromJobOnly]
  exact take_toNat_length_le _ n h

theorem ite_take_length_le (c : Prop) [Decidable c] (A B : List String)
    (n : Int) (h : 1 ≤ n) :
    (((if c then A.take n.toNat else B.take n.toNat) : List String).length : Int) ≤ n := by
  split
  · exact take_toNat_length_le A n h
  · exact take_toNat_length_le B n h

theorem buildPlanFromJobAndResume_length (jd resume : String) (n : Int) (h : 1 ≤ n) :
    ((buildPlanFromJobAndResume jd resume n).length : Int) ≤ n := by
  rw [buildPlanFromJobAndResume]
  dsimp only
  exact ite_take_length_le _ _ _ n h

/-- C6: with a non-positive question budget the plan is empty; with
budget `N ≥ 1` the plan never exceeds `N` questions (with or without a
resume); and without a resume the plan always opens with the fixed
introduction question. -/
theorem build_interview_plan_spec (jd : String) (n : Int) :
    (n ≤ 0 → build_interview_plan jd none n = []) ∧
    (∀ resume : Option String, 1 ≤ n →
      ((build_interview_plan jd resume n).length : Int) ≤ n) ∧
    (1 ≤ n → (build_interview_plan jd none n).head? = some introQuestionJobOnly) := by
  refine ⟨?_, ?_, ?_⟩
  · intro h
    rw [build_interview_plan.eq_def, if_pos h]
  · intro resume h
    rw [build_interview_plan.eq_def, if_neg (by omega)]
    cases resume with
    | none => exact buildPlanFromJobOnly_length jd n h
    | some r =>
      show (((if r ≠ "" then buildPlanFromJobAndResume jd r n
        else buildPlanFromJobOnly jd n) : List String).length : Int) ≤ n
      by_cases hr : r ≠ ""
      · rw [if_pos hr]
        exact buildPlanFromJobAndResume_length jd r n h
      · rw [if_neg hr]
        exact buildPlanFromJobOnly_length jd n h
  · intro h
    rw [build_interview_plan.eq_def, if_neg (by omega)]
    show (buildPlanFromJobOnly jd n).head? = _
    rw [buildPlanFromJobOnly]
    obtain ⟨m, hm⟩ : ∃ m, n.toNat = m + 1 := by
      have : 1 ≤ n.toNat := by omega
      exact ⟨n.toNat - 1, by omega⟩
    rw [hm]
    rw [List.take_succ_cons]
    rfl

theorem build_interview_plan_spec_witness :
    build_interview_plan "Python dev" none (-1) = [] ∧
    ((build_interview_plan "Python dev" none 2).length : Int) ≤ 2 ∧
    (build_interview_plan "Python dev" none 2).head? = some introQuestionJobOnly :=
  ⟨(build_interview_plan_spec "Python dev" (-1)).1 (by decide),
   (build_interview_plan_spec "Python dev" 2).2.1 none (by decide),
   (build_interview_plan_spec "Python dev" 2).2.2 (by decide)⟩

end AIVoice
